import Mathlib

/-!
Verification of the distro-detection engine of `virtinst/urldetect.py`.

The Python code is shallowly embedded: strings are Lean `String` (a wrapper
around `List Char` in this toolchain, so every helper below recurses
structurally over `String.data` and evaluates inside the kernel), fallible
operations return `Except PyErr`, and the external collaborators (the fetch
layer and the OS-variant catalog) are parameters, following their boundary
contracts.
-/

set_option maxHeartbeats 1000000

namespace UrlDetect

/-! ## Python string primitives -/

/-- Python's default whitespace set used by `str.strip()` and `str.split()`. -/
def wsChar (c : Char) : Bool :=
  c == ' ' || c == '\t' || c == '\n' || c == '\r' || c == '\x0b' || c == '\x0c'

/-- Strip characters satisfying `wsChar` from both ends (Python `str.strip()`). -/
def pyStripList (l : List Char) : List Char :=
  ((l.dropWhile wsChar).reverse.dropWhile wsChar).reverse

def pyStrip (s : String) : String :=
  String.mk (pyStripList s.data)

/-- Split a character list at every occurrence of `c`, keeping empty pieces,
as Python `str.split(c)` does for an explicit single-character separator. -/
def splitCharList (c : Char) : List Char → List (List Char)
  | [] => [[]]
  | d :: rest =>
    let r := splitCharList c rest
    if d == c then [] :: r
    else
      match r with
      | h :: t => (d :: h) :: t
      | [] => [[d]]

def pySplitAll (c : Char) (s : String) : List String :=
  (splitCharList c s.data).map (fun l => String.mk l)

/-- Locate the first occurrence of `c`, returning the pieces before and after. -/
def splitFirstChar (c : Char) : List Char → Option (List Char × List Char)
  | [] => none
  | d :: rest =>
    if d == c then some ([], rest)
    else (splitFirstChar c rest).map (fun p => (d :: p.1, p.2))

/-- Python `s.split(c, 1)` for a single-character separator. -/
def pySplit1 (c : Char) (s : String) : List String :=
  match splitFirstChar c s.data with
  | none => [s]
  | some (a, b) => [String.mk a, String.mk b]

/-- Python `s.rsplit(c, 1)` for a single-character separator. -/
def pyRSplit1 (c : Char) (s : String) : List String :=
  match splitFirstChar c s.data.reverse with
  | none => [s]
  | some (a, b) => [String.mk b.reverse, String.mk a.reverse]

/-- Python `s.split(c)[0]`: the part of `s` before the first `c`. -/
def pyTakeUntil (c : Char) (s : String) : String :=
  String.mk (s.data.takeWhile (fun d => !(d == c)))

/-- Python `str.splitlines()` restricted to `\n` separators, which is the only
line terminator occurring in the inputs handled here: a trailing newline does
not produce a trailing empty line, and the empty string has no lines. -/
def pyLines (s : String) : List String :=
  if s.data.isEmpty then []
  else
    let r := (splitCharList '\n' s.data).map (fun l => String.mk l)
    match s.data.getLast? with
    | some c => if c == '\n' then r.dropLast else r
    | none => r

def pyStartsWith (s pre : String) : Bool :=
  pre.data.isPrefixOf s.data

/-- Python's `sub in s` substring test. -/
def containsList (sub : List Char) : List Char → Bool
  | [] => sub.isEmpty
  | l@(_ :: rest) => sub.isPrefixOf l || containsList sub rest

def pyContains (s sub : String) : Bool :=
  containsList sub.data s.data

/-- Python `str.isdigit()` for ASCII content. -/
def pyIsDigit (s : String) : Bool :=
  match s.data with
  | [] => false
  | l => l.all Char.isDigit

def pyNatOfDigits (s : String) : Nat :=
  s.data.foldl (fun n c => n * 10 + (c.toNat - 48)) 0

/-- Python `int(s)` on an already-stripped ASCII literal: an optional sign
followed by at least one digit; `none` models the raised `ValueError`.
(Python also accepts surrounding whitespace and `_` digit separators, which
never occur in the strings this engine parses.) -/
def pyIntOpt (s : String) : Option Int :=
  match s.data with
  | '-' :: rest =>
    if rest.isEmpty || !rest.all Char.isDigit then none
    else some (-(Int.ofNat (pyNatOfDigits (String.mk rest))))
  | '+' :: rest =>
    if rest.isEmpty || !rest.all Char.isDigit then none
    else some (Int.ofNat (pyNatOfDigits (String.mk rest)))
  | l =>
    if l.isEmpty || !l.all Char.isDigit then none
    else some (Int.ofNat (pyNatOfDigits s))

/-- The `_safeint` helper of `RHELDistro` : `int(s)` with `0` on failure. -/
def pySafeInt (s : String) : Int :=
  (pyIntOpt s).getD 0

/-- Python `str.replace(pat, rep)` (all non-overlapping occurrences, left to
right); the fuel argument is the length of the subject, enough because each
step consumes at least one character when `pat` is nonempty. Replacement with
an empty pattern never occurs in the embedded code. -/
def replaceAux (pat rep : List Char) : Nat → List Char → List Char
  | _, [] => []
  | 0, l => l
  | fuel + 1, l@(c :: rest) =>
    if pat.isPrefixOf l then rep ++ replaceAux pat rep fuel (l.drop pat.length)
    else c :: replaceAux pat rep fuel rest

def pyReplace (s pat rep : String) : String :=
  if pat.data.isEmpty then s
  else String.mk (replaceAux pat.data rep.data s.data.length s.data)

/-- Python whitespace `str.split()` (no argument): runs of whitespace
separate the pieces and empty pieces are dropped. -/
def wsSplitAux : List Char → List Char → List (List Char)
  | acc, [] => if acc.isEmpty then [] else [acc.reverse]
  | acc, c :: rest =>
    if wsChar c then
      if acc.isEmpty then wsSplitAux [] rest
      else acc.reverse :: wsSplitAux [] rest
    else wsSplitAux (c :: acc) rest

def pySplitWS (s : String) : List String :=
  (wsSplitAux [] s.data).map (fun l => String.mk l)

def pyLower (s : String) : String :=
  String.mk (s.data.map Char.toLower)

/-! ## Error model -/

/-- Python exceptions that can escape the embedded code. `noDistro` is the
terminal `ValueError` of `getDistroStore`; it carries the source location and
whether the "maybe you mistyped" hint was appended (the hint is included
exactly when the root existence check failed), abstracting the i18n message
formatting. -/
inductive PyErr where
  | valueError
  | noSectionError
  | noOptionError
  | indexError
  | typeError
  | runtimeError (msg : String)
  | noDistro (location : String) (mistypedHint : Bool)
deriving DecidableEq, Repr

/-- Python list indexing `l[n]`, raising `IndexError` when out of range. -/
def pyIdxE {α : Type} (l : List α) (n : Nat) : Except PyErr α :=
  match l.get? n with
  | some x => Except.ok x
  | none => Except.error PyErr.indexError

/-! ## Treeinfo descriptor (configparser) -/

/-- Parsed `.treeinfo` content: ordered sections of ordered key/value pairs,
the queryable shape produced by `configparser`. -/
def TreeinfoData : Type := List (String × List (String × String))

/-- `configparser` errors distinguished by the embedded code. -/
inductive CPErr where
  | noSection
  | noOption
deriving DecidableEq, Repr

/-- `ConfigParser.get(sec, opt)`: `NoSectionError` when the section is absent,
`NoOptionError` when the option is absent from the section. -/
def tiGet (ti : TreeinfoData) (sec opt : String) : Except CPErr String :=
  match ti.find? (fun p => p.1 == sec) with
  | none => Except.error CPErr.noSection
  | some (_, opts) =>
    match opts.find? (fun p => p.1 == opt) with
    | none => Except.error CPErr.noOption
    | some (_, v) => Except.ok v

/-- `ConfigParser.has_section`. -/
def tiHasSection (ti : TreeinfoData) (sec : String) : Bool :=
  ti.any (fun p => p.1 == sec)

/-- `ConfigParser.has_option(sec, opt)`; raises `NoSectionError` when the
section itself is absent. -/
def tiHasOption (ti : TreeinfoData) (sec opt : String) : Except CPErr Bool :=
  match ti.find? (fun p => p.1 == sec) with
  | none => Except.error CPErr.noSection
  | some (_, opts) => Except.ok (opts.any (fun p => p.1 == opt))

/-- Lift an uncaught `configparser` error into the ambient exception model. -/
def liftTI {α : Type} : Except CPErr α → Except PyErr α
  | Except.ok a => Except.ok a
  | Except.error CPErr.noSection => Except.error PyErr.noSectionError
  | Except.error CPErr.noOption => Except.error PyErr.noOptionError

/-- A treeinfo with only a `general` section holding family, version and
arch, the shape used throughout the detection scenarios. -/
def mkTI (fam ver arch : String) : TreeinfoData :=
  [("general", [("family", fam), ("version", ver), ("arch", arch)])]

/-! ## External collaborators -/

/-- One catalog record of the external OS-variant database (`osdict`). The
`codename` field uses `""` for the absent value, matching Python falsiness. -/
structure OsRecord where
  name : String
  codename : String
  label : String
deriving DecidableEq, Repr

/-- The external catalog boundary: the ordered list of known OS variants as
enumerated by `OSDB.list_os()`, plus the id returned by
`OSDB.latest_fedora_version()`. -/
structure Catalog where
  oses : List OsRecord
  latestFedora : String

/-- `OSDB.lookup_os(v) is not None`, the validity check used by
`Distro._check_osvariant_valid`. -/
def catIsValid (cat : Catalog) (v : String) : Bool :=
  cat.oses.any (fun o => o.name == v)

/-- The fetcher boundary (Source Handle): `hasFile` is the existence check,
`fileContent` is `acquireFileContent` (`none` models the raised `ValueError`),
and `treeinfoFile` is the result of fetching and configparser-parsing
`.treeinfo` (`none` models a failed fetch). -/
structure Fetcher where
  location : String
  hasFile : String → Bool
  fileContent : String → Option String
  treeinfoFile : Option TreeinfoData

/-! ## Probe registry -/

/-- The probe variants: the `Distro` subclasses with a non-null `name`
collected by `_build_distro_list`, in class-declaration order. -/
inductive Store where
  | generic
  | fedora
  | rhel
  | centos
  | sl
  | suse
  | sles
  | sled
  | opensuse
  | debian
  | ubuntu
  | mandriva
  | altlinux
deriving DecidableEq, Repr

/-- The `urldistro` class attribute (the canonical distro key). -/
def storeUrldistro : Store → Option String
  | Store.fedora => some "fedora"
  | Store.rhel => some "rhel"
  | Store.centos => some "centos"
  | Store.sles => some "sles"
  | Store.sled => some "sled"
  | Store.opensuse => some "opensuse"
  | Store.debian => some "debian"
  | Store.ubuntu => some "ubuntu"
  | Store.mandriva => some "mandriva"
  | Store.altlinux => some "altlinux"
  | _ => none

/-- The `uses_treeinfo` class attribute. -/
def usesTreeinfo : Store → Bool
  | Store.generic => true
  | Store.fedora => true
  | Store.rhel => true
  | Store.centos => true
  | Store.sl => true
  | _ => false

/-- The `name` class attribute. -/
def storeName : Store → String
  | Store.generic => "Generic"
  | Store.fedora => "Fedora"
  | Store.rhel => "Red Hat Enterprise Linux"
  | Store.centos => "CentOS"
  | Store.sl => "Scientific Linux"
  | Store.suse => "SUSE"
  | Store.sles => "SUSE"
  | Store.sled => "SUSE"
  | Store.opensuse => "SUSE"
  | Store.debian => "Debian"
  | Store.ubuntu => "Ubuntu"
  | Store.mandriva => "Mandriva/Mageia"
  | Store.altlinux => "ALT Linux"

/-- The named `Distro` subclasses in the order `_build_distro_list` discovers
them in the module globals (class declaration order). -/
def declaredRegistry : List Store :=
  [Store.generic, Store.fedora, Store.rhel, Store.centos, Store.sl,
   Store.suse, Store.sles, Store.sled, Store.opensuse,
   Store.debian, Store.ubuntu, Store.mandriva, Store.altlinux]

/-- The duplicate-`urldistro` scan of `_build_distro_list`: every class's key
is appended to `seen`, and a non-null key already present is fatal. -/
def checkDupUrldistro : List Store → List (Option String) → Except String Unit
  | [], _ => Except.ok ()
  | s :: rest, seen =>
    if (storeUrldistro s).isSome && seen.contains (storeUrldistro s) then
      Except.error ("programming error: duplicate urldistro=" ++
        ((storeUrldistro s).getD ""))
    else checkDupUrldistro rest (seen ++ [storeUrldistro s])

/-- `_build_distro_list`: fail on a duplicate canonical key, then force the
catch-all `GenericDistro` to the end of the list. -/
def buildDistroList (l : List Store) : Except String (List Store) :=
  match checkDupUrldistro l [] with
  | Except.error m => Except.error m
  | Except.ok _ => Except.ok (l.erase Store.generic ++ [Store.generic])

/-- The module-level `_allstores` value. -/
def allstores : List Store :=
  declaredRegistry.erase Store.generic ++ [Store.generic]

/-! ## Descriptor reader (`_grabTreeinfo`) -/

/-- `_grabTreeinfo`: a failed fetch of `.treeinfo` yields no descriptor; the
mandatory-key probe `treeinfo.get("general", "family")` turns a missing
`general` section into no descriptor (`NoSectionError` is caught), while a
missing `family` key inside an existing `general` section raises the uncaught
`NoOptionError`. The temporary local copy released by the `finally` block is
not modelled. -/
def grabTreeinfo (f : Fetcher) : Except PyErr (Option TreeinfoData) :=
  match f.treeinfoFile with
  | none => Except.ok none
  | some ti =>
    match tiGet ti "general" "family" with
    | Except.error CPErr.noSection => Except.ok none
    | Except.error CPErr.noOption => Except.error PyErr.noOptionError
    | Except.ok _ => Except.ok (some ti)

/-! ## Legacy metadata parser (`_parseSUSEContent`) -/

/-- The five accumulators of the `_parseSUSEContent` line scan. Each is the
two-element (or singleton) list produced by the corresponding split, `none`
standing for the initial Python `None`. -/
structure SuseScan where
  distribution : Option (List String)
  distro_version : Option (List String)
  distro_summary : Option (List String)
  distro_distro : Option (List String)
  distro_arch : Option (List String)
deriving DecidableEq, Repr

def suseScanInit : SuseScan :=
  ⟨none, none, none, none, none⟩

/-- One iteration of the `_parseSUSEContent` loop body: the `if`/`elif`
prefix dispatch, assigning (overwriting) the matching accumulator. -/
def processSUSELine (st : SuseScan) (line : String) : SuseScan :=
  if pyStartsWith line "LABEL " then
    { st with distribution := some (pySplit1 ' ' line) }
  else if pyStartsWith line "DISTRO " then
    { st with distro_distro := some (pyRSplit1 ',' line) }
  else if pyStartsWith line "VERSION " then
    let dv := pySplit1 ' ' line
    let dv :=
      match dv with
      | [a, b] =>
        match pySplit1 '-' b with
        | [v, _] => [a, v]
        | _ => dv
      | _ => dv
    { st with distro_version := some dv }
  else if pyStartsWith line "SUMMARY " then
    { st with distro_summary := some (pySplit1 ' ' line) }
  else if pyStartsWith line "BASEARCHS " then
    { st with distro_arch := some (pySplit1 ' ' line) }
  else if pyStartsWith line "DEFAULTBASE " then
    { st with distro_arch := some (pySplit1 ' ' line) }
  else if pyStartsWith line "REPOID " then
    { st with distro_arch := some (pyRSplit1 '/' line) }
  else st

/-- The `if distribution and distro_version and distro_arch: break` test
(nonempty split results are truthy). -/
def suseSaturated (st : SuseScan) : Bool :=
  st.distribution.isSome && st.distro_version.isSome && st.distro_arch.isSome

/-- The scan loop: process a line, then stop if all three fields are set. -/
def scanSUSELines : SuseScan → List String → SuseScan
  | st, [] => st
  | st, l :: rest =>
    if suseSaturated (processSUSELine st l) then processSUSELine st l
    else scanSUSELines (processSUSELine st l) rest

/-- `_parseSUSEContent`: scan the lines after the header, apply the identity
fallback (`SUMMARY`, then `DISTRO`) and derive the architecture token; list
indexing may raise `IndexError` exactly where Python indexes. -/
def parseSUSEContent (cbuf : String) :
    Except PyErr (Option (List String) × Option (List String) × Option String) :=
  let st := scanSUSELines suseScanInit ((pyLines cbuf).drop 1)
  let distribution :=
    match st.distribution with
    | some d => some d
    | none =>
      match st.distro_summary with
      | some d => some d
      | none => st.distro_distro
  match st.distro_arch with
  | some da =>
    (match pyIdxE da 1 with
     | Except.error e => Except.error e
     | Except.ok a1 =>
       let ta := pyStrip a1
       let ta := if pyContains ta "i586-x86_64" then "x86_64" else ta
       Except.ok (distribution, st.distro_version, some ta))
  | none =>
    let ta :=
      if pyContains cbuf "x86_64" then some "x86_64"
      else if pyContains cbuf "i586" then some "i586"
      else if pyContains cbuf "s390x" then some "s390x"
      else none
    Except.ok (distribution, st.distro_version, ta)

/-! ## Distro probe validation -/

/-- `Distro._fetchAndMatchRegex` for the patterns of shape `.*X.*`: fetch the
file and test whether some line contains `X`; a fetch failure is `False`. -/
def fetchAndMatchContains (f : Fetcher) (filename sub : String) : Bool :=
  match f.fileContent filename with
  | none => false
  | some content => (pyLines content).any (fun l => pyContains l sub)

/-- `Distro._fetchAndMatchRegex` for the anchored patterns of shape `X.*`:
test whether some line starts with `X`. -/
def fetchAndMatchStarts (f : Fetcher) (filename pre : String) : Bool :=
  match f.fileContent filename with
  | none => false
  | some content => (pyLines content).any (fun l => pyStartsWith l pre)

/-- `Distro._getTreeinfoMedia`: pick the arch-specific (or `xen`) images
section and read the requested media key; either `configparser` lookup can
fail. -/
def getTreeinfoMediaCP (t : TreeinfoData) (vmtype : Option String)
    (media : String) : Except CPErr String :=
  match (if vmtype == some "xen" then Except.ok "xen"
         else tiGet t "general" "arch") with
  | Except.error e => Except.error e
  | Except.ok ta => tiGet t ("images-" ++ ta) media

/-- `GenericDistro._xen_paths`. -/
def genericXenPaths : List (String × String) :=
  [("images/xen/vmlinuz", "images/xen/initrd.img")]

/-- `GenericDistro._hvm_paths`. -/
def genericHvmPaths : List (String × String) :=
  [("images/pxeboot/vmlinuz", "images/pxeboot/initrd.img"),
   ("ppc/ppc64/vmlinuz", "ppc/ppc64/initrd.img")]

/-- `GenericDistro._iso_paths`. -/
def genericIsoPaths : List String :=
  ["images/boot.iso", "boot/boot.iso", "current/images/netboot/mini.iso",
   "install/images/boot.iso"]

/-- `GenericDistro.isValidStore`: derive media paths from the treeinfo images
sections when present (lookup failures inside the guarded `try` blocks are
swallowed), fall back to the well-known path lists, and match when either a
kernel pair or a boot ISO was found. The `general.arch` reads outside the
`try` blocks propagate their errors. Returns `(matched, os_variant)`;
`GenericDistro` never resolves a variant. -/
def genericValidate (f : Fetcher) (vmtype : Option String)
    (ti : Option TreeinfoData) : Except PyErr (Bool × Option String) :=
  match
    (match ti with
     | none => Except.ok (none, none)
     | some t =>
       match (if vmtype == some "xen" then Except.ok "xen"
              else liftTI (tiGet t "general" "arch")) with
       | Except.error e => Except.error e
       | Except.ok typ =>
         match liftTI (tiGet t "general" "arch") with
         | Except.error e => Except.error e
         | Except.ok garch =>
           let vk :=
             if tiHasSection t ("images-" ++ typ) then
               match getTreeinfoMediaCP t vmtype "kernel",
                     getTreeinfoMediaCP t vmtype "initrd" with
               | Except.ok k, Except.ok i => some (k, i)
               | _, _ => none
             else none
           let vi :=
             if tiHasSection t ("images-" ++ garch) then
               match tiGet t ("images-" ++ garch) "boot.iso" with
               | Except.ok p => some p
               | Except.error _ => none
             else none
           Except.ok (vk, vi)) with
  | Except.error e => Except.error e
  | Except.ok (vk0, vi0) =>
    let kernList := if vmtype == some "xen" then genericXenPaths
                    else genericHvmPaths
    let vk :=
      match vk0 with
      | some p => some p
      | none => kernList.find? (fun pr => f.hasFile pr.1 && f.hasFile pr.2)
    let vi :=
      match vi0 with
      | some p => some p
      | none => genericIsoPaths.find? f.hasFile
    Except.ok (vk.isSome || vi.isSome, none)

/-- `RHELDistro._parseTreeinfoVersion`: the major is `_safeint` of the first
character (`IndexError` on an empty string, which the caller guards); the
minor comes from the part after the first `.`, or from the second character
when there is no dot. -/
def parseTreeinfoVersion (verstr : String) : Except PyErr (Int × Int) :=
  match pyIdxE verstr.data 0 with
  | Except.error e => Except.error e
  | Except.ok c =>
    let version := pySafeInt (String.mk [c])
    let updinfo := pySplitAll '.' verstr
    let update :=
      match updinfo with
      | _ :: u :: _ => pySafeInt u
      | _ =>
        match verstr.data with
        | _ :: c2 :: _ => pySafeInt (String.mk [c2])
        | _ => 0
    Except.ok (version, update)

/-- The decrement loop of `RHELDistro._setRHELVariant`, trying
`rhel<major>.<u>`, `rhel<major>.<u-1>`, ..., `rhel<major>.0` against the
catalog. -/
def rhelUpdateLoop (cat : Catalog) (base : String) : Nat → Option String
  | 0 =>
    if catIsValid cat (base ++ "." ++ toString (0 : Nat)) then
      some (base ++ "." ++ toString (0 : Nat))
    else none
  | n + 1 =>
    if catIsValid cat (base ++ "." ++ toString (n + 1)) then
      some (base ++ "." ++ toString (n + 1))
    else rhelUpdateLoop cat base n

/-- `RHELDistro._setRHELVariant`: clamp a negative minor to 0, run the
decrement loop, then fall back to the bare `rhel<major>` id; `none` leaves
`os_variant` unset. -/
def setRHELVariant (cat : Catalog) (version update : Int) : Option String :=
  let base := "rhel" ++ toString version
  let u : Nat := if update < 0 then 0 else update.toNat
  match rhelUpdateLoop cat base u with
  | some v => some v
  | none => if catIsValid cat base then some base else none

/-- `RHELDistro._variantFromVersion`: read `general.version` (and the
optional `general.name`), special-case the ARM server name, otherwise parse
the version string; returns `(_version_number, os_variant)`. -/
def rhelVariantFromVersion (cat : Catalog) (t : TreeinfoData) :
    Except PyErr (Option Int × Option String) :=
  match liftTI (tiGet t "general" "version") with
  | Except.error e => Except.error e
  | Except.ok ver =>
    match liftTI (tiHasOption t "general" "name") with
    | Except.error e => Except.error e
    | Except.ok hasName =>
      match (if hasName then
               match liftTI (tiGet t "general" "name") with
               | Except.error e => Except.error e
               | Except.ok n => Except.ok (some n)
             else Except.ok none) with
      | Except.error e => Except.error e
      | Except.ok name =>
        if ver == "" then Except.ok (none, none)
        else
          match
            (if (match name with
                 | some n =>
                   pyStartsWith n "Red Hat Enterprise Linux Server for ARM"
                 | none => false) then
               Except.ok ((7 : Int), (0 : Int))
             else parseTreeinfoVersion ver) with
          | Except.error e => Except.error e
          | Except.ok (version, update) =>
            Except.ok (some version, setRHELVariant cat version update)

/-- `FedoraDistro.isValidStore`, treeinfo branch helper: parse the number out
of `OSDB.latest_fedora_version()`; a latest id not matching `fedora[0-9]+`
uses the safe default 22, and `int()` on a tail with trailing non-digits
raises. -/
def fedoraLatestVernum (cat : Catalog) : Except PyErr Nat :=
  let lv := cat.latestFedora
  if pyStartsWith lv "fedora" &&
      (match lv.data.drop 6 with
       | c :: _ => c.isDigit
       | [] => false) then
    match pyIntOpt (String.mk (lv.data.drop 6)) with
    | some n => Except.ok n.toNat
    | none => Except.error PyErr.valueError
  else Except.ok 22

/-- `FedoraDistro.isValidStore` with a treeinfo: family must contain
`Fedora`; `rawhide`/`development`/`Rawhide` resolve to the latest catalog
variant; a `_` development suffix is stripped; a non-numeric version falls
back to the latest number; a number above the latest clamps to the latest
variant id. -/
def fedoraValidate (cat : Catalog) (t : TreeinfoData) :
    Except PyErr (Bool × Option String) :=
  match liftTI (tiGet t "general" "family") with
  | Except.error e => Except.error e
  | Except.ok fam =>
    if !pyContains fam "Fedora" then Except.ok (false, none)
    else
      match liftTI (tiGet t "general" "version") with
      | Except.error e => Except.error e
      | Except.ok ver =>
        if ver == "" then Except.ok (false, none)
        else
          match fedoraLatestVernum cat with
          | Except.error e => Except.error e
          | Except.ok latestNum =>
            if ver == "development" || ver == "rawhide" || ver == "Rawhide"
            then Except.ok (true, some cat.latestFedora)
            else
              let ver2 := if pyContains ver "_" then pyTakeUntil '_' ver
                          else ver
              let vstr := pyTakeUntil '-' ver2
              let vernum := if pyIsDigit vstr then pyNatOfDigits vstr
                            else latestNum
              Except.ok (true, some (if vernum > latestNum then
                                       cat.latestFedora
                                     else "fedora" ++ toString vernum))

/-- `RHELDistro.isValidStore` with a treeinfo: family must contain
`Red Hat Enterprise Linux` or `RHEL`, then the variant is derived. -/
def rhelValidate (cat : Catalog) (t : TreeinfoData) :
    Except PyErr (Bool × Option String) :=
  match liftTI (tiGet t "general" "family") with
  | Except.error e => Except.error e
  | Except.ok fam =>
    if pyContains fam "Red Hat Enterprise Linux" || pyContains fam "RHEL" then
      match rhelVariantFromVersion cat t with
      | Except.error e => Except.error e
      | Except.ok (_, osv) => Except.ok (true, osv)
    else Except.ok (false, none)

/-- `CentOSDistro.isValidStore` with a treeinfo: family must contain
`CentOS`; the RHEL-derived variant gets `rhel` replaced by `centos` only when
the substituted id is a valid catalog entry. -/
def centosValidate (cat : Catalog) (t : TreeinfoData) :
    Except PyErr (Bool × Option String) :=
  match liftTI (tiGet t "general" "family") with
  | Except.error e => Except.error e
  | Except.ok fam =>
    if pyContains fam "CentOS" then
      match rhelVariantFromVersion cat t with
      | Except.error e => Except.error e
      | Except.ok (_, osv) =>
        match osv with
        | none => Except.ok (true, none)
        | some v =>
          let nv := pyReplace v "rhel" "centos"
          Except.ok (true, some (if catIsValid cat nv then nv else v))
    else Except.ok (false, none)

/-- `SLDistro.isValidStore` with a treeinfo. -/
def slValidate (cat : Catalog) (t : TreeinfoData) :
    Except PyErr (Bool × Option String) :=
  match liftTI (tiGet t "general" "family") with
  | Except.error e => Except.error e
  | Except.ok fam =>
    if pyContains fam "Scientific" then
      match rhelVariantFromVersion cat t with
      | Except.error e => Except.error e
      | Except.ok (_, osv) => Except.ok (true, osv)
    else Except.ok (false, none)

/-- `SuseDistro._detect_osdict_from_url`: the first catalog entry whose name
starts with `opensuse` and whose codename segment (`/<tail>/`) occurs in the
source URI wins; otherwise the current variant is kept. The `re.search` on
the codename is embedded as a literal substring test (the codenames contain
no regex metacharacters other than `.`, which never changes the outcome
here). -/
def detectOsdictFromUrl (cat : Catalog) (uri : String) (cur : Option String) :
    Option String :=
  let oses := cat.oses.filter (fun o => pyStartsWith o.name "opensuse")
  match oses.find? (fun o =>
      pyContains uri ("/" ++ String.mk (o.name.data.drop 8) ++ "/")) with
  | some o => some o.name
  | none => cur

/-- `SuseDistro.isValidStore` together with `_variantFromVersion` for a probe
with `version_from_content` set: an empty content version is not-matched; a
non-numeric major version makes `int()` raise `ValueError`; `sles`/`sled`
append the major and an `sp<minor>` suffix, `opensuse` appends the full
version (or `tumbleweed` for an 8-digit date); a major below 10 maps to the
fixed legacy `<urldistro>9`; finally the variant may be refined from the URI.
A probe class without a `urldistro` would hit the Python `None`-plus-string
`TypeError`. -/
def suseValidate (cat : Catalog) (uri : String) (store : Store)
    (vfc : List String) : Except PyErr (Bool × Option String) :=
  match vfc with
  | [] => Except.ok (false, none)
  | _ =>
    match pyIdxE vfc 1 with
    | Except.error e => Except.error e
    | Except.ok v1 =>
      let distroVersion := pyStrip v1
      let version := pyStrip (pyTakeUntil '.' distroVersion)
      match pyIntOpt version with
      | none => Except.error PyErr.valueError
      | some n =>
        match storeUrldistro store with
        | none => Except.error PyErr.typeError
        | some udist =>
          let osv :=
            if n ≥ 10 then
              if pyStartsWith udist "sles" || pyStartsWith udist "sled" then
                let parts := pySplit1 '.' distroVersion
                let sp :=
                  match parts with
                  | [_, rest] => "sp" ++ pyStrip rest
                  | _ => ""
                udist ++ version ++ sp
              else
                if version.data.length == 8 then udist ++ "tumbleweed"
                else udist ++ distroVersion
            else udist ++ "9"
          Except.ok (true, detectOsdictFromUrl cat uri (some osv))

/-! ### Debian/Ubuntu -/

def wordChar (c : Char) : Bool :=
  c.isAlphanum || c == '_'

/-- The two URI patterns of `DebianDistro._find_treearch`:
`^.*/installer-(\w+)/?$` and `^.*/daily-images/(\w+)/?$`. -/
def debianPatternArch (uri : String) : Option String :=
  let u := match uri.data.getLast? with
           | some c => if c == '/' then String.mk uri.data.dropLast else uri
           | none => uri
  let parts := pySplitAll '/' u
  match parts.reverse with
  | last :: _ :: _ =>
    if pyStartsWith last "installer-" &&
        !(last.data.drop 10).isEmpty && (last.data.drop 10).all wordChar then
      some (String.mk (last.data.drop 10))
    else
      match parts.reverse with
      | last2 :: before :: _ :: _ =>
        if before == "daily-images" &&
            !last2.data.isEmpty && last2.data.all wordChar then
          some last2
        else none
      | _ => none
  | _ => none

/-- `DebianDistro._find_treearch`: URI patterns first, then a substring
search for well-known arch tokens (renaming `x86_64` to `amd64`), defaulting
to `i386`. -/
def debianTreearch (uri : String) : String :=
  match debianPatternArch uri with
  | some a => a
  | none =>
    match ["i386", "amd64", "x86_64", "arm64"].find?
        (fun a => pyContains uri a) with
    | some a => if a == "x86_64" then "amd64" else a
    | none => "i386"

/-- `DebianDistro._check_manifest`: existence check, then the content match
(`generic/kernel.<name>` on s390x, else the installer directory name). -/
def debianCheckManifest (f : Fetcher) (arch name dirname filename : String) :
    Bool :=
  if !f.hasFile filename then false
  else if arch == "s390x" then
    fetchAndMatchContains f filename ("generic/kernel." ++ pyLower name)
  else fetchAndMatchContains f filename dirname

/-- `DebianDistro._check_info`: existence check, then a line anchored on the
family name. -/
def debianCheckInfo (f : Fetcher) (name filename : String) : Bool :=
  if !f.hasFile filename then false
  else fetchAndMatchStarts f filename name

/-- `DebianDistro._detect_debian_osdict_from_url`: daily trees take the first
catalog entry of the family (an empty family list would raise `IndexError`);
otherwise the first entry whose codename (first word of `codename`, else
second word of a spaced `label`) occurs as a `/<codename>/` URI segment wins;
with no match the current (unset) variant is kept. -/
def detectDebianOsdict (cat : Catalog) (uri name urlpre : String) :
    Except PyErr (Option String) :=
  let root := pyLower name
  let oses := cat.oses.filter (fun o => pyStartsWith o.name root)
  if urlpre == "daily" then
    match oses with
    | [] => Except.error PyErr.indexError
    | o :: _ => Except.ok (some o.name)
  else
    match oses.foldl
        (fun acc o =>
          match acc with
          | Except.error e => Except.error e
          | Except.ok (some v) => Except.ok (some v)
          | Except.ok none =>
            if !(o.codename == "") then
              match pySplitWS o.codename with
              | cn :: _ =>
                if pyContains uri ("/" ++ pyLower cn ++ "/") then
                  Except.ok (some o.name)
                else Except.ok none
              | [] => Except.error PyErr.indexError
            else
              if !pyContains o.label " " then Except.ok none
              else
                match pyIdxE (pySplitWS o.label) 1 with
                | Except.error e => Except.error e
                | Except.ok w =>
                  if pyContains uri ("/" ++ pyLower w ++ "/") then
                    Except.ok (some o.name)
                  else Except.ok none)
        (Except.ok none) with
    | Except.error e => Except.error e
    | Except.ok r => Except.ok r

/-- `DebianDistro.isValidStore` (and, with `name = "Ubuntu"`, the inherited
`UbuntuDistro` version): the regular-tree, daily-tree and install-CD checks
in order. The install-CD branch only extends media paths, resolving no
variant. -/
def debianValidate (cat : Catalog) (f : Fetcher) (arch : String)
    (name : String) : Except PyErr (Bool × Option String) :=
  let dirname := pyLower name ++ "-installer"
  if debianCheckManifest f arch name dirname "current/images/MANIFEST" then
    match detectDebianOsdict cat f.location name "current/images" with
    | Except.error e => Except.error e
    | Except.ok osv => Except.ok (true, osv)
  else if debianCheckManifest f arch name dirname "daily/MANIFEST" then
    match detectDebianOsdict cat f.location name "daily" with
    | Except.error e => Except.error e
    | Except.ok osv => Except.ok (true, osv)
  else if debianCheckInfo f name ".disk/info" then Except.ok (true, none)
  else Except.ok (false, none)

/-- `MandrivaDistro.isValidStore`: HVM-only, `VERSION` marker file whose
content names Mandriva or Mageia. -/
def mandrivaValidate (f : Fetcher) (vmtype : Option String) :
    Except PyErr (Bool × Option String) :=
  if vmtype.isSome && !(vmtype == some "hvm") then Except.ok (false, none)
  else if !f.hasFile "VERSION" then Except.ok (false, none)
  else if fetchAndMatchContains f "VERSION" "Mandriva" then
    Except.ok (true, none)
  else if fetchAndMatchContains f "VERSION" "Mageia" then
    Except.ok (true, none)
  else Except.ok (false, none)

/-- `ALTLinuxDistro.isValidStore`: HVM-only, `.disk/info` containing `ALT `. -/
def altlinuxValidate (f : Fetcher) (vmtype : Option String) :
    Except PyErr (Bool × Option String) :=
  if vmtype.isSome && !(vmtype == some "hvm") then Except.ok (false, none)
  else if !f.hasFile ".disk/info" then Except.ok (false, none)
  else if fetchAndMatchContains f ".disk/info" "ALT " then
    Except.ok (true, none)
  else Except.ok (false, none)

/-- `isValidStore` of each probe as instantiated by the enumeration loop of
`getDistroStore`: the shared treeinfo is `ti` and `version_from_content` is
`vfc` (always `[]` in the loop; the SUSE content path passes the parsed
version). The no-treeinfo branches are the marker-file checks. -/
def storeValidate (cat : Catalog) (f : Fetcher) (arch : String)
    (vmtype : Option String) (ti : Option TreeinfoData) (vfc : List String) :
    Store → Except PyErr (Bool × Option String)
  | Store.generic => genericValidate f vmtype ti
  | Store.fedora =>
    match ti with
    | none => Except.ok (f.hasFile "Fedora", none)
    | some t => fedoraValidate cat t
  | Store.rhel =>
    match ti with
    | none =>
      if f.hasFile "Server" || f.hasFile "Client" then
        Except.ok (true, some "rhel5")
      else Except.ok (f.hasFile "RedHat", none)
    | some t => rhelValidate cat t
  | Store.centos =>
    match ti with
    | none => Except.ok (f.hasFile "CentOS", none)
    | some t => centosValidate cat t
  | Store.sl =>
    match ti with
    | none => Except.ok (f.hasFile "SL", none)
    | some t => slValidate cat t
  | Store.suse => suseValidate cat f.location Store.suse vfc
  | Store.sles => suseValidate cat f.location Store.sles vfc
  | Store.sled => suseValidate cat f.location Store.sled vfc
  | Store.opensuse => suseValidate cat f.location Store.opensuse vfc
  | Store.debian => debianValidate cat f arch "Debian"
  | Store.ubuntu => debianValidate cat f arch "Ubuntu"
  | Store.mandriva => mandrivaValidate f vmtype
  | Store.altlinux => altlinuxValidate f vmtype

/-! ## Legacy-content classification (`_distroFromSUSEContent`) -/

/-- The detection outcome carried by a returned probe: the winning variant,
its resolved `os_variant`, and the result its `isValidStore()` call
reported. -/
structure StoreResult where
  store : Store
  os_variant : Option String
  matched : Bool
deriving DecidableEq, Repr

/-- `_parse_sle_distribution`: the SLE version is word 4 of the identity
string, with the service pack digit (character 2 of word 5) appended after a
dot when present. -/
def parseSleDistribution (d : List String) : Except PyErr (List String) :=
  match pyIdxE d 1 with
  | Except.error e => Except.error e
  | Except.ok d1 =>
    let parts := pySplitAll ' ' (pyStrip d1)
    match pyIdxE parts 4 with
    | Except.error e => Except.error e
    | Except.ok p4 =>
      if parts.length > 5 then
        match pyIdxE parts 5 with
        | Except.error e => Except.error e
        | Except.ok p5 =>
          match pyIdxE p5.data 2 with
          | Except.error e => Except.error e
          | Except.ok c =>
            Except.ok ["VERSION", p4 ++ "." ++ String.mk [c]]
      else Except.ok ["VERSION", p4]

/-- The identity-pattern dispatch of `_distroFromSUSEContent`: pick the probe
class from the identity string and derive a missing version token with the
family-specific rule. The Python patterns `.*SUSE Linux Enterprise Server*`,
`.*SUSE SLES*` and `.*SUSE Linux Enterprise Desktop*` leave their final
character optional, hence the shortened substrings. -/
def suseContentClass (distribution : Option (List String))
    (dv0 : Option (List String)) :
    Except PyErr (Store × Option (List String)) :=
  match distribution with
  | none => Except.ok (Store.generic, dv0)
  | some d =>
    match pyIdxE d 1 with
    | Except.error e => Except.error e
    | Except.ok d1 =>
      if pyContains d1 "SUSE Linux Enterprise Serve" ||
          pyContains d1 "SUSE SLE" then
        match dv0 with
        | some _ => Except.ok (Store.sles, dv0)
        | none =>
          match parseSleDistribution d with
          | Except.error e => Except.error e
          | Except.ok v => Except.ok (Store.sles, some v)
      else if pyContains d1 "SUSE Linux Enterprise Deskto" then
        match dv0 with
        | some _ => Except.ok (Store.sled, dv0)
        | none =>
          match parseSleDistribution d with
          | Except.error e => Except.error e
          | Except.ok v => Except.ok (Store.sled, some v)
      else if pyContains d1 "openSUSE" then
        match dv0 with
        | some _ => Except.ok (Store.opensuse, dv0)
        | none =>
          match pyIdxE d 0 with
          | Except.error e => Except.error e
          | Except.ok d0 =>
            match pyIdxE (pySplitAll ':' (pyStrip d0)) 4 with
            | Except.error e => Except.error e
            | Except.ok seg => Except.ok (Store.opensuse, some ["VERSION", seg])
      else Except.ok (Store.generic, dv0)

/-- `_distroFromSUSEContent`: fetch the legacy `content` file (a fetch
failure yields nothing), parse it, classify, and bail out when no version
token could be derived. The chosen probe's `isValidStore()` is invoked
eagerly, but its boolean result is only recorded, not acted upon: the probe
object is returned regardless. The constructor's `tree_arch or arch`
argument only influences media paths, never the validation outcome, so it is
not tracked. -/
def distroFromSUSEContent (cat : Catalog) (f : Fetcher) (arch : String)
    (vmtype : Option String) : Except PyErr (Option StoreResult) :=
  match f.fileContent "content" with
  | none => Except.ok none
  | some cbuf =>
    match parseSUSEContent cbuf with
    | Except.error e => Except.error e
    | Except.ok (distribution, dv0, _) =>
      match suseContentClass distribution dv0 with
      | Except.error e => Except.error e
      | Except.ok (dclass, dv) =>
        match dv with
        | none => Except.ok none
        | some ver =>
          match (if dclass == Store.generic then
                   genericValidate f vmtype none
                 else suseValidate cat f.location dclass ver) with
          | Except.error e => Except.error e
          | Except.ok (matched, osv) =>
            Except.ok (some ⟨dclass, osv, matched⟩)

/-! ## Orchestrator (`getDistroStore`) -/

/-- The hint scan of `getDistroStore`: the loop keeps the last store whose
`urldistro` equals the hint. -/
def findMatchingStore (stores : List Store) (u : String) : Option Store :=
  stores.foldl
    (fun acc s => if storeUrldistro s == some u then some s else acc) none

/-- The hint reordering: an empty hint string is falsy and ignored; a found
store is removed and reinserted at the front. -/
def prioritizeStores (stores : List Store) (hint : Option String) :
    List Store :=
  match hint with
  | none => stores
  | some u =>
    if u == "" then stores
    else
      match findMatchingStore stores u with
      | none => stores
      | some s => s :: stores.erase s

/-- `stores.sort(key=lambda x: not x.uses_treeinfo)`: Python's sort is
stable, and a stable sort on a two-valued key is exactly the concatenation of
the two key classes in their original relative order. -/
def sortStoresTreeinfo (stores : List Store) : List Store :=
  stores.filter (fun s => usesTreeinfo s) ++
    stores.filter (fun s => !usesTreeinfo s)

/-- The candidate order the enumeration loop iterates: the registry list,
hint-prioritized, and treeinfo-sorted when a descriptor was found. -/
def candidateOrder (hint : Option String) (hasTI : Bool) : List Store :=
  let l := prioritizeStores allstores hint
  if hasTI then sortStoresTreeinfo l else l

/-- The enumeration loop: instantiate each candidate, validate, and return
the first match; a raised exception propagates. -/
def tryStores (v : Store → Except PyErr (Bool × Option String)) :
    List Store → Except PyErr (Option StoreResult)
  | [] => Except.ok none
  | s :: rest =>
    match v s with
    | Except.error e => Except.error e
    | Except.ok (true, osv) => Except.ok (some ⟨s, osv, true⟩)
    | Except.ok (false, _) => tryStores v rest

/-- The tail of `getDistroStore` after the legacy path: enumerate the
candidate order; if nothing matched, raise the terminal `ValueError` carrying
the location, with the mistyped-URL hint exactly when the root existence
check fails. -/
def enumerateStores (cat : Catalog) (f : Fetcher) (arch : String)
    (vmtype : Option String) (hint : Option String)
    (ti : Option TreeinfoData) : Except PyErr StoreResult :=
  match tryStores (storeValidate cat f arch vmtype ti [])
      (candidateOrder hint ti.isSome) with
  | Except.error e => Except.error e
  | Except.ok (some r) => Except.ok r
  | Except.ok none =>
    Except.error (PyErr.noDistro f.location (!f.hasFile ""))

/-- `getDistroStore`: grab the descriptor once; with no descriptor try the
legacy SUSE content path and return its probe immediately when it yields
one; otherwise enumerate the prioritized candidate order. The hint is the
`urldistro` of the caller-specified variant. -/
def getDistroStore (cat : Catalog) (f : Fetcher) (hint : Option String)
    (arch : String) (vmtype : Option String) : Except PyErr StoreResult :=
  match grabTreeinfo f with
  | Except.error e => Except.error e
  | Except.ok none =>
    match distroFromSUSEContent cat f arch vmtype with
    | Except.error e => Except.error e
    | Except.ok (some r) => Except.ok r
    | Except.ok none => enumerateStores cat f arch vmtype hint none
  | Except.ok (some t) => enumerateStores cat f arch vmtype hint (some t)

/-! ## Media acquisition cleanup (`Distro._kernelFetchHelper`) -/

/-- The set of temporary local copies currently held, the state threaded
through `acquireFile`/`os.unlink`. -/
structure FileSys where
  tmp : List String
deriving DecidableEq, Repr

/-- `Distro._kernelFetchHelper`: fetch the kernel (its local path joins the
temporary files), build the extra boot argument, then fetch the initrd; if
that fetch raises, the kernel's local copy is unlinked before the exception
propagates. `acq` maps a remote path to the local copy's path, `none`
modelling a raised fetch error; `methodArg` is the `_get_method_arg()`
keyword of the probe. -/
def kernelFetchHelper (acq : String → Option String) (methodArg : String)
    (location : String) (kernelpath initrdpath : String) (fs : FileSys) :
    Except PyErr (String × String × String) × FileSys :=
  match acq kernelpath with
  | none => (Except.error PyErr.valueError, fs)
  | some kernel =>
    let fs1 : FileSys := ⟨fs.tmp ++ [kernel]⟩
    let args := if !pyStartsWith location "/" then
                  methodArg ++ "=" ++ location
                else ""
    match acq initrdpath with
    | some initrd => (Except.ok (kernel, initrd, args), ⟨fs1.tmp ++ [initrd]⟩)
    | none => (Except.error PyErr.valueError, ⟨fs1.tmp.erase kernel⟩)

/-! ## Spec-side candidate-order composition (for the refinement claim) -/

/-- Candidate order as the specification words it (§4.4 steps 3-5): the
declared registry with the catch-all forced last, then the probe matching
the canonical-key hint moved to the front, then, when a descriptor was
found, a stable two-class sort placing descriptor-aware probes first. -/
def specCandidateOrder (hint : Option String) (hasDescriptor : Bool) :
    List Store :=
  let base := declaredRegistry.erase Store.generic ++ [Store.generic]
  let hinted :=
    match hint with
    | none => base
    | some u =>
      if u == "" then base
      else
        match base.find? (fun s => storeUrldistro s == some u) with
        | none => base
        | some s => s :: base.erase s
  if hasDescriptor then
    hinted.filter (fun s => usesTreeinfo s) ++
      hinted.filter (fun s => !usesTreeinfo s)
  else hinted

/-! ## Helper lemmas -/

theorem pyStartsWith_append (p s : String) : pyStartsWith (p ++ s) p = true := by
  unfold pyStartsWith
  cases p with
  | mk pd =>
    cases s with
    | mk sd =>
      show pd.isPrefixOf (pd ++ sd) = true
      rw [List.isPrefixOf_iff_prefix]
      exact List.prefix_append pd sd

theorem find?_append_single {α : Type} (p : α → Bool) (l : List α) (a : α) :
    (l ++ [a]).find? p =
      match l.find? p with
      | some v => some v
      | none => if p a then some a else none := by
  induction l with
  | nil =>
    cases hp : p a with
    | true => simp [List.find?, hp]
    | false => simp [List.find?, hp]
  | cons h t ih =>
    cases hp : p h with
    | true => simp [List.find?, hp]
    | false => simp [List.find?, hp, ih]

theorem rhelUpdateLoop_eq (c : Catalog) (base : String) (u : Nat) :
    rhelUpdateLoop c base u =
      ((List.range (u + 1)).reverse.map
        (fun i => base ++ "." ++ toString i)).find? (catIsValid c) := by
  induction u with
  | zero =>
    cases hv : catIsValid c (base ++ "." ++ toString 0) with
    | true => simp [rhelUpdateLoop, List.range_succ, List.find?, hv]
    | false => simp [rhelUpdateLoop, List.range_succ, List.find?, hv]
  | succ n ih =>
    rw [rhelUpdateLoop]
    rw [show List.range (n + 1 + 1) = List.range (n + 1) ++ [n + 1] from
      List.range_succ (n + 1)]
    simp only [List.reverse_append, List.reverse_cons, List.reverse_nil,
      List.nil_append, List.singleton_append, List.map_cons]
    cases hv : catIsValid c (base ++ "." ++ toString (n + 1)) with
    | true => simp [List.find?, hv]
    | false => simp [List.find?, hv, ih]

theorem foldl_lastMatch_keep (u : String) (a : Store) :
    ∀ (l : List Store), (∀ s ∈ l, storeUrldistro s = some u → s = a) →
      l.foldl (fun acc s => if storeUrldistro s == some u then some s else acc)
        (some a) = some a := by
  intro l
  induction l with
  | nil => intro _; rfl
  | cons h t ih =>
    intro hall
    rw [List.foldl_cons]
    by_cases hk : (storeUrldistro h == some u) = true
    · have hh : h = a := hall h (List.mem_cons_self h t) (beq_iff_eq.mp hk)
      rw [if_pos hk, hh]
      exact ih (fun s hs hsu => hall s (List.mem_cons_of_mem h hs) hsu)
    · rw [if_neg hk]
      exact ih (fun s hs hsu => hall s (List.mem_cons_of_mem h hs) hsu)

theorem findMatchingStore_eq_find? (l : List Store) (u : String)
    (huniq : ∀ s ∈ l, ∀ t ∈ l, (storeUrldistro s).isSome = true →
      storeUrldistro s = storeUrldistro t → s = t) :
    findMatchingStore l u = l.find? (fun s => storeUrldistro s == some u) := by
  induction l with
  | nil => rfl
  | cons h t ih =>
    unfold findMatchingStore
    rw [List.foldl_cons]
    by_cases hk : (storeUrldistro h == some u) = true
    · rw [if_pos hk]
      have hkeq : storeUrldistro h = some u := beq_iff_eq.mp hk
      rw [foldl_lastMatch_keep u h t (fun s hs hsu => by
        exact huniq s (List.mem_cons_of_mem h hs) h (List.mem_cons_self h t)
          (by rw [hsu]; rfl) (by rw [hsu, hkeq]))]
      simp [List.find?, hk]
    · rw [if_neg hk]
      rw [Bool.not_eq_true] at hk
      simp only [List.find?, hk]
      exact ih (fun s hs t' ht' => huniq s (List.mem_cons_of_mem h hs) t'
        (List.mem_cons_of_mem h ht'))

theorem allstores_keys_bool :
    (allstores.all (fun s => allstores.all (fun t =>
      (!(storeUrldistro s).isSome) ||
        (!(storeUrldistro s == storeUrldistro t)) || s == t))) = true := by
  decide

theorem allstores_keys_unique :
    ∀ s ∈ allstores, ∀ t ∈ allstores, (storeUrldistro s).isSome = true →
      storeUrldistro s = storeUrldistro t → s = t := by
  intro s hs t ht h1 h2
  have h1t : (storeUrldistro t).isSome = true := by rw [← h2]; exact h1
  have hb := List.all_eq_true.mp
    (List.all_eq_true.mp allstores_keys_bool s hs) t ht
  simp only [h2, h1t, beq_self_eq_true, Bool.not_true, Bool.false_or] at hb
  exact beq_iff_eq.mp hb

theorem find?_unique_mem (l : List Store) (u : String) (h : Store)
    (huniq : ∀ s ∈ l, ∀ t ∈ l, (storeUrldistro s).isSome = true →
      storeUrldistro s = storeUrldistro t → s = t)
    (hmem : h ∈ l) (hkey : storeUrldistro h = some u) :
    l.find? (fun s => storeUrldistro s == some u) = some h := by
  induction l with
  | nil => cases hmem
  | cons a t ih =>
    by_cases hk : (storeUrldistro a == some u) = true
    · have ha : a = h := by
        have hkeq : storeUrldistro a = some u := beq_iff_eq.mp hk
        exact huniq a (List.mem_cons_self a t) h hmem (by rw [hkeq]; rfl)
          (by rw [hkeq, hkey])
      subst ha
      simp [List.find?, hk]
    · rw [Bool.not_eq_true] at hk
      simp only [List.find?, hk]
      have hmem' : h ∈ t := by
        cases List.mem_cons.mp hmem with
        | inl hh =>
          exfalso
          rw [← hh] at hk
          rw [hkey] at hk
          simp at hk
        | inr hh => exact hh
      exact ih (fun s hs t' ht' => huniq s (List.mem_cons_of_mem a hs) t'
        (List.mem_cons_of_mem a ht')) hmem'

theorem checkDup_mem_error (u : String) :
    ∀ (rest : List Store) (seen : List (Option String)),
      some u ∈ seen → (∃ t ∈ rest, storeUrldistro t = some u) →
      ∃ m, checkDupUrldistro rest seen = Except.error m := by
  intro rest
  induction rest with
  | nil =>
    intro seen _ hex
    obtain ⟨t, ht, _⟩ := hex
    cases ht
  | cons h rest ih =>
    intro seen hseen hex
    cases hc : ((storeUrldistro h).isSome &&
        seen.contains (storeUrldistro h)) with
    | true =>
      refine ⟨"programming error: duplicate urldistro=" ++
        ((storeUrldistro h).getD ""), ?_⟩
      simp only [checkDupUrldistro]
      rw [if_pos hc]
    | false =>
      have hstep : checkDupUrldistro (h :: rest) seen =
          checkDupUrldistro rest (seen ++ [storeUrldistro h]) := by
        simp only [checkDupUrldistro]
        rw [if_neg (by rw [hc]; exact Bool.false_ne_true)]
      obtain ⟨t, ht, htk⟩ := hex
      cases List.mem_cons.mp ht with
      | inl hth =>
        exfalso
        have : ((storeUrldistro h).isSome &&
            seen.contains (storeUrldistro h)) = true := by
          rw [hth] at htk
          rw [htk]
          simp only [Option.isSome_some, Bool.true_and]
          exact List.elem_iff.mpr hseen
        rw [hc] at this
        cases this
      | inr hth =>
        rw [hstep]
        exact ih (seen ++ [storeUrldistro h])
          (List.mem_append_left _ hseen) ⟨t, hth, htk⟩

theorem checkDup_dup_error (u : String) (s t : Store)
    (hs : storeUrldistro s = some u) (ht : storeUrldistro t = some u) :
    ∀ (l₁ : List Store) (seen : List (Option String)) (l₂ l₃ : List Store),
      ∃ m, checkDupUrldistro (l₁ ++ (s :: (l₂ ++ (t :: l₃)))) seen =
        Except.error m := by
  intro l₁
  induction l₁ with
  | nil =>
    intro seen l₂ l₃
    rw [List.nil_append]
    cases hc : ((storeUrldistro s).isSome &&
        seen.contains (storeUrldistro s)) with
    | true =>
      refine ⟨"programming error: duplicate urldistro=" ++
        ((storeUrldistro s).getD ""), ?_⟩
      simp only [checkDupUrldistro]
      rw [if_pos hc]
    | false =>
      have hstep : checkDupUrldistro (s :: (l₂ ++ (t :: l₃))) seen =
          checkDupUrldistro (l₂ ++ (t :: l₃))
            (seen ++ [storeUrldistro s]) := by
        simp only [checkDupUrldistro]
        rw [if_neg (by rw [hc]; exact Bool.false_ne_true)]
      rw [hstep]
      apply checkDup_mem_error u
      · rw [hs]
        exact List.mem_append_right _ (List.mem_singleton.mpr rfl)
      · exact ⟨t, List.mem_append_right _ (List.mem_cons_self t l₃), ht⟩
  | cons h l₁ ih =>
    intro seen l₂ l₃
    rw [List.cons_append]
    cases hc : ((storeUrldistro h).isSome &&
        seen.contains (storeUrldistro h)) with
    | true =>
      refine ⟨"programming error: duplicate urldistro=" ++
        ((storeUrldistro h).getD ""), ?_⟩
      simp only [checkDupUrldistro]
      rw [if_pos hc]
    | false =>
      have hstep : checkDupUrldistro
            (h :: (l₁ ++ (s :: (l₂ ++ (t :: l₃))))) seen =
          checkDupUrldistro (l₁ ++ (s :: (l₂ ++ (t :: l₃))))
            (seen ++ [storeUrldistro h]) := by
        simp only [checkDupUrldistro]
        rw [if_neg (by rw [hc]; exact Bool.false_ne_true)]
      rw [hstep]
      exact ih (seen ++ [storeUrldistro h]) l₂ l₃

theorem liftTI_mkTI_family (fam ver a : String) :
    liftTI (tiGet (mkTI fam ver a) "general" "family") = Except.ok fam := rfl

theorem liftTI_mkTI_version (fam ver a : String) :
    liftTI (tiGet (mkTI fam ver a) "general" "version") = Except.ok ver := rfl

theorem liftTI_mkTI_hasName (fam ver a : String) :
    liftTI (tiHasOption (mkTI fam ver a) "general" "name") =
      Except.ok false := rfl

theorem boolNeTrue {b : Bool} (h : b = false) : ¬(b = true) := by
  rw [h]
  exact Bool.false_ne_true

/-! ## Claim theorems -/

/-- C9: in the registry built at startup, at most one probe variant declares
any given canonical distro key: the actual registry builds successfully (with
the catch-all last), its non-null keys are pairwise distinct, and
`_build_distro_list` raises on any list containing two probes declaring the
same key. -/
theorem registry_urldistro_unique :
    buildDistroList declaredRegistry = Except.ok allstores
    ∧ allstores.getLast? = some Store.generic
    ∧ (∀ s ∈ allstores, ∀ t ∈ allstores, (storeUrldistro s).isSome = true →
        storeUrldistro s = storeUrldistro t → s = t)
    ∧ (∀ (l₁ l₂ l₃ : List Store) (s t : Store) (u : String),
        storeUrldistro s = some u → storeUrldistro t = some u →
        ∃ m, buildDistroList (l₁ ++ (s :: (l₂ ++ (t :: l₃)))) =
          Except.error m) := by
  refine ⟨rfl, rfl, allstores_keys_unique, ?_⟩
  intro l₁ l₂ l₃ s t u hs ht
  obtain ⟨m, hm⟩ := checkDup_dup_error u s t hs ht l₁ [] l₂ l₃
  refine ⟨m, ?_⟩
  unfold buildDistroList
  rw [hm]

/-- C9 witness: the theorem applied to the actual registry and to a concrete
duplicate-key list. -/
theorem registry_urldistro_unique_witness :
    Store.fedora = Store.fedora
    ∧ ∃ m, buildDistroList ([] ++ (Store.rhel :: ([] ++ (Store.rhel :: [])))) =
        Except.error m :=
  ⟨registry_urldistro_unique.2.2.1 Store.fedora (by decide) Store.fedora
      (by decide) rfl rfl,
    registry_urldistro_unique.2.2.2 [] [] [] Store.rhel Store.rhel "rhel"
      rfl rfl⟩

/-- C10: if the kernel fetch succeeds but the initrd fetch raises, the
kernel's temporary local copy is unlinked before the exception propagates:
the helper returns the error and the kernel file is no longer among the held
temporary files. -/
theorem kernel_fetch_cleanup (acq : String → Option String)
    (methodArg location kernelpath initrdpath : String) (fs : FileSys)
    (k : String) (hk : acq kernelpath = some k) (hi : acq initrdpath = none)
    (hnot : k ∉ fs.tmp) :
    (kernelFetchHelper acq methodArg location kernelpath initrdpath fs).1 =
      Except.error PyErr.valueError
    ∧ k ∉ (kernelFetchHelper acq methodArg location kernelpath
        initrdpath fs).2.tmp := by
  unfold kernelFetchHelper
  rw [hk, hi]
  refine ⟨rfl, ?_⟩
  show k ∉ (fs.tmp ++ [k]).erase k
  rw [List.erase_append_right _ (by
    intro hmem
    exact hnot (by simpa using hmem))]
  simpa using hnot

/-- C10 witness: a fetcher that can deliver the kernel but not the initrd,
starting from an empty temporary set. -/
theorem kernel_fetch_cleanup_witness :
    (kernelFetchHelper (fun p => if p == "k" then some "/tmp/k" else none)
      "method" "http://x/tree" "k" "i" ⟨[]⟩).1 =
        Except.error PyErr.valueError
    ∧ "/tmp/k" ∉ (kernelFetchHelper
        (fun p => if p == "k" then some "/tmp/k" else none)
        "method" "http://x/tree" "k" "i" ⟨[]⟩).2.tmp :=
  kernel_fetch_cleanup (fun p => if p == "k" then some "/tmp/k" else none)
    "method" "http://x/tree" "k" "i" ⟨[]⟩ "/tmp/k" rfl rfl (by simp)

/-- C6 counterexample: a fetched descriptor whose `general` section exists
but lacks the `family` key makes the reader raise `NoOptionError` (only
`NoSectionError` is caught), which is distinguishable from the no-descriptor
outcome — refuting the claim that a missing `general.family` key always
degrades to "no descriptor". -/
theorem treeinfo_missing_family_counterexample :
    grabTreeinfo ⟨"http://x/", fun _ => false, fun _ => none,
        some [("general", [("version", "8")])]⟩ =
      Except.error PyErr.noOptionError
    ∧ ∀ h : Except PyErr (Option TreeinfoData),
        h = Except.error PyErr.noOptionError → h ≠ Except.ok none :=
  ⟨rfl, fun h hh => by rw [hh]; exact fun hc => Except.noConfusion hc⟩

/-- C6 amended: a failed fetch or a descriptor without a `general` section
yields the no-descriptor outcome without raising, but a `general` section
missing only the `family` key raises `NoOptionError` past the reader's
boundary. -/
theorem treeinfo_missing_family_behavior :
    (∀ f : Fetcher, f.treeinfoFile = none → grabTreeinfo f = Except.ok none)
    ∧ (∀ (f : Fetcher) (ti : TreeinfoData), f.treeinfoFile = some ti →
        tiHasSection ti "general" = false → grabTreeinfo f = Except.ok none)
    ∧ (∀ (f : Fetcher) (ti : TreeinfoData), f.treeinfoFile = some ti →
        tiGet ti "general" "family" = Except.error CPErr.noOption →
        grabTreeinfo f = Except.error PyErr.noOptionError) := by
  refine ⟨?_, ?_, ?_⟩
  · intro f hf
    simp only [grabTreeinfo, hf]
  · intro f ti hf hsec
    have hsec2 : ti.any (fun p => p.1 == "general") = false := hsec
    have hfind : ti.find? (fun p => p.1 == "general") = none := by
      rw [List.find?_eq_none]
      intro p hp hpeq
      have hany : ti.any (fun p => p.1 == "general") = true :=
        List.any_eq_true.mpr ⟨p, hp, hpeq⟩
      rw [hsec2] at hany
      cases hany
    have hget : tiGet ti "general" "family" =
        Except.error CPErr.noSection := by
      unfold tiGet
      rw [hfind]
    simp only [grabTreeinfo, hf, hget]
  · intro f ti hf hget
    simp only [grabTreeinfo, hf, hget]

/-- C6 amended witness: the three behaviors at concrete fetchers. -/
theorem treeinfo_missing_family_behavior_witness :
    grabTreeinfo ⟨"a", fun _ => false, fun _ => none, none⟩ = Except.ok none
    ∧ grabTreeinfo ⟨"b", fun _ => false, fun _ => none,
        some [("other", [("family", "X")])]⟩ = Except.ok none
    ∧ grabTreeinfo ⟨"c", fun _ => false, fun _ => none,
        some [("general", [("version", "8")])]⟩ =
          Except.error PyErr.noOptionError :=
  ⟨treeinfo_missing_family_behavior.1 _ rfl,
    treeinfo_missing_family_behavior.2.1 _ [("other", [("family", "X")])]
      rfl rfl,
    treeinfo_missing_family_behavior.2.2 _ [("general", [("version", "8")])]
      rfl rfl⟩

theorem splitFirstChar_none_takeWhile (c : Char) :
    ∀ l : List Char, splitFirstChar c l = none →
      l.takeWhile (fun d => !(d == c)) = l := by
  intro l
  induction l with
  | nil => intro _; rfl
  | cons d rest ih =>
    intro h
    cases hd : (d == c) with
    | true =>
      exfalso
      simp [splitFirstChar, hd] at h
    | false =>
      have hrest : splitFirstChar c rest = none := by
        simp only [splitFirstChar, hd] at h
        rw [if_neg Bool.false_ne_true] at h
        exact Option.map_eq_none'.mp h
      simp [List.takeWhile_cons, hd, ih hrest]

theorem splitFirstChar_some_takeWhile (c : Char) :
    ∀ (l a b : List Char), splitFirstChar c l = some (a, b) →
      l.takeWhile (fun d => !(d == c)) = a := by
  intro l
  induction l with
  | nil => intro a b h; exact Option.noConfusion h
  | cons d rest ih =>
    intro a b h
    cases hd : (d == c) with
    | true =>
      have h2 : (some (([] : List Char), rest) :
          Option (List Char × List Char)) = some (a, b) := by
        rw [← h]
        simp [splitFirstChar, hd]
      injection h2 with h3
      have ha : ([] : List Char) = a := congrArg Prod.fst h3
      rw [List.takeWhile_cons, hd]
      simp only [Bool.not_true, if_neg Bool.false_ne_true]
      exact ha
    | false =>
      have hstep : (splitFirstChar c rest).map
          (fun p => (d :: p.1, p.2)) = some (a, b) := by
        rw [← h]
        simp only [splitFirstChar, hd]
        rw [if_neg Bool.false_ne_true]
      cases hsp : splitFirstChar c rest with
      | none =>
        rw [hsp] at hstep
        simp at hstep
      | some p =>
        obtain ⟨p1, p2⟩ := p
        rw [hsp] at hstep
        simp only [Option.map_some'] at hstep
        injection hstep with h3
        have ha : d :: p1 = a := congrArg Prod.fst h3
        rw [List.takeWhile_cons, hd]
        simp only [Bool.not_false, if_pos]
        rw [ih p1 p2 hsp]
        exact ha

/-- C3 counterexample: two `LABEL` lines before the scan saturates — the
second occurrence overwrites the first, so the parser is not
first-match-wins as claimed (a first-match parser would keep `one`). -/
theorem suse_content_first_match_counterexample :
    parseSUSEContent "H\nLABEL one\nLABEL two\nVERSION 1.0\nDEFAULTBASE i586" =
      Except.ok (some ["LABEL", "two"], some ["VERSION", "1.0"], some "i586")
    ∧ (["LABEL", "two"] : List String) ≠ ["LABEL", "one"] :=
  ⟨rfl, by decide⟩

/-- C3 amended: the parser is a single linear scan over the lines after the
header that stops once the three fields label/version/arch are all populated
(lines after that point are never consumed), but before saturation each
recognized LABEL/VERSION/BASEARCHS/DEFAULTBASE/REPOID line overwrites its
field regardless of any previous value — last match wins, not first match. -/
theorem suse_scan_overwrite_and_short_circuit :
    (∀ (l1 l2 : List String) (st : SuseScan), suseSaturated st = false →
        suseSaturated (scanSUSELines st l1) = true →
        scanSUSELines st (l1 ++ l2) = scanSUSELines st l1)
    ∧ (∀ (st : SuseScan) (s : String),
        processSUSELine st ("LABEL " ++ s) =
          { st with distribution := some (pySplit1 ' ' ("LABEL " ++ s)) })
    ∧ (∀ (st : SuseScan) (s : String),
        processSUSELine st ("VERSION " ++ s) =
          { st with
              distro_version := some ["VERSION", pyTakeUntil '-' s] })
    ∧ (∀ (st : SuseScan) (s : String),
        processSUSELine st ("BASEARCHS " ++ s) =
          { st with
              distro_arch := some (pySplit1 ' ' ("BASEARCHS " ++ s)) })
    ∧ (∀ (st : SuseScan) (s : String),
        processSUSELine st ("DEFAULTBASE " ++ s) =
          { st with
              distro_arch := some (pySplit1 ' ' ("DEFAULTBASE " ++ s)) })
    ∧ (∀ (st : SuseScan) (s : String),
        processSUSELine st ("REPOID " ++ s) =
          { st with
              distro_arch := some (pyRSplit1 '/' ("REPOID " ++ s)) }) := by
  refine ⟨?_, ?_, ?_, ?_, ?_, ?_⟩
  · intro l1 l2
    induction l1 with
    | nil =>
      intro st hst hsat
      rw [scanSUSELines] at hsat
      rw [hst] at hsat
      cases hsat
    | cons l rest ih =>
      intro st hst hsat
      rw [List.cons_append]
      simp only [scanSUSELines] at hsat ⊢
      cases hs : suseSaturated (processSUSELine st l) with
      | true => rfl
      | false =>
        rw [hs] at hsat
        simp only [if_neg Bool.false_ne_true] at hsat ⊢
        exact ih (processSUSELine st l) hs hsat
  · intro st s
    unfold processSUSELine
    rw [if_pos (pyStartsWith_append "LABEL " s)]
  · intro st s
    unfold processSUSELine
    rw [if_neg (show ¬(pyStartsWith ("VERSION " ++ s) "LABEL " = true)
        from boolNeTrue rfl)]
    rw [if_neg (show ¬(pyStartsWith ("VERSION " ++ s) "DISTRO " = true)
        from boolNeTrue rfl)]
    rw [if_pos (pyStartsWith_append "VERSION " s)]
    simp only [show pySplit1 ' ' ("VERSION " ++ s) = ["VERSION", s] from rfl]
    cases hsfc : splitFirstChar '-' s.data with
    | none =>
      have h2 : pyTakeUntil '-' s = s := by
        unfold pyTakeUntil
        rw [splitFirstChar_none_takeWhile '-' s.data hsfc]
      simp only [pySplit1, hsfc, h2]
    | some p =>
      obtain ⟨a2, b2⟩ := p
      have h2 : pyTakeUntil '-' s = String.mk a2 := by
        unfold pyTakeUntil
        rw [splitFirstChar_some_takeWhile '-' s.data a2 b2 hsfc]
      simp only [pySplit1, hsfc, h2]
  · intro st s
    unfold processSUSELine
    rw [if_neg (show ¬(pyStartsWith ("BASEARCHS " ++ s) "LABEL " = true)
        from boolNeTrue rfl)]
    rw [if_neg (show ¬(pyStartsWith ("BASEARCHS " ++ s) "DISTRO " = true)
        from boolNeTrue rfl)]
    rw [if_neg (show ¬(pyStartsWith ("BASEARCHS " ++ s) "VERSION " = true)
        from boolNeTrue rfl)]
    rw [if_neg (show ¬(pyStartsWith ("BASEARCHS " ++ s) "SUMMARY " = true)
        from boolNeTrue rfl)]
    rw [if_pos (pyStartsWith_append "BASEARCHS " s)]
  · intro st s
    unfold processSUSELine
    rw [if_neg (show ¬(pyStartsWith ("DEFAULTBASE " ++ s) "LABEL " = true)
        from boolNeTrue rfl)]
    rw [if_neg (show ¬(pyStartsWith ("DEFAULTBASE " ++ s) "DISTRO " = true)
        from boolNeTrue rfl)]
    rw [if_neg (show ¬(pyStartsWith ("DEFAULTBASE " ++ s) "VERSION " = true)
        from boolNeTrue rfl)]
    rw [if_neg (show ¬(pyStartsWith ("DEFAULTBASE " ++ s) "SUMMARY " = true)
        from boolNeTrue rfl)]
    rw [if_neg (show ¬(pyStartsWith ("DEFAULTBASE " ++ s) "BASEARCHS " = true)
        from boolNeTrue rfl)]
    rw [if_pos (pyStartsWith_append "DEFAULTBASE " s)]
  · intro st s
    unfold processSUSELine
    rw [if_neg (show ¬(pyStartsWith ("REPOID " ++ s) "LABEL " = true)
        from boolNeTrue rfl)]
    rw [if_neg (show ¬(pyStartsWith ("REPOID " ++ s) "DISTRO " = true)
        from boolNeTrue rfl)]
    rw [if_neg (show ¬(pyStartsWith ("REPOID " ++ s) "VERSION " = true)
        from boolNeTrue rfl)]
    rw [if_neg (show ¬(pyStartsWith ("REPOID " ++ s) "SUMMARY " = true)
        from boolNeTrue rfl)]
    rw [if_neg (show ¬(pyStartsWith ("REPOID " ++ s) "BASEARCHS " = true)
        from boolNeTrue rfl)]
    rw [if_neg (show ¬(pyStartsWith ("REPOID " ++ s) "DEFAULTBASE " = true)
        from boolNeTrue rfl)]
    rw [if_pos (pyStartsWith_append "REPOID " s)]

/-- C3 amended witness: the short-circuit applied to a concrete saturated
prefix, and the per-line overwrite equations at concrete states and lines,
including a dash-suffixed version token. -/
theorem suse_scan_overwrite_witness :
    scanSUSELines suseScanInit
        (["LABEL a", "VERSION 1", "BASEARCHS x"] ++ ["LABEL b"]) =
      scanSUSELines suseScanInit ["LABEL a", "VERSION 1", "BASEARCHS x"]
    ∧ processSUSELine suseScanInit ("LABEL " ++ "x") =
        { suseScanInit with
            distribution := some (pySplit1 ' ' ("LABEL " ++ "x")) }
    ∧ processSUSELine suseScanInit ("VERSION " ++ "13.2-0") =
        { suseScanInit with
            distro_version := some ["VERSION", pyTakeUntil '-' "13.2-0"] }
    ∧ processSUSELine suseScanInit ("REPOID " ++ "a/b") =
        { suseScanInit with
            distro_arch := some (pyRSplit1 '/' ("REPOID " ++ "a/b")) } :=
  ⟨suse_scan_overwrite_and_short_circuit.1
      ["LABEL a", "VERSION 1", "BASEARCHS x"] ["LABEL b"] suseScanInit
      rfl rfl,
    suse_scan_overwrite_and_short_circuit.2.1 suseScanInit "x",
    suse_scan_overwrite_and_short_circuit.2.2.1 suseScanInit "13.2-0",
    suse_scan_overwrite_and_short_circuit.2.2.2.2.2 suseScanInit "a/b"⟩

/-- C7: when every candidate probe reports not-matched, `getDistroStore`
raises exactly one terminal failure carrying the source location, and the
"maybe you mistyped" hint is attached if and only if the root existence
check on the source returns false. -/
theorem no_match_failure_hint (cat : Catalog) (f : Fetcher) (arch : String)
    (vmtype hint : Option String) (ti : Option TreeinfoData)
    (hti : grabTreeinfo f = Except.ok ti)
    (hsuse : ti = none →
      distroFromSUSEContent cat f arch vmtype = Except.ok none)
    (hnone : tryStores (storeValidate cat f arch vmtype ti [])
        (candidateOrder hint ti.isSome) = Except.ok none) :
    getDistroStore cat f hint arch vmtype =
      Except.error (PyErr.noDistro f.location (!f.hasFile "")) := by
  cases ti with
  | none =>
    have h1 : getDistroStore cat f hint arch vmtype =
        enumerateStores cat f arch vmtype hint none := by
      unfold getDistroStore
      rw [hti, hsuse rfl]
    rw [h1]
    unfold enumerateStores
    rw [hnone]
  | some t =>
    have h1 : getDistroStore cat f hint arch vmtype =
        enumerateStores cat f arch vmtype hint (some t) := by
      unfold getDistroStore
      rw [hti]
    rw [h1]
    unfold enumerateStores
    rw [hnone]

/-- C7 witness: an unreachable empty source with no descriptor fails with
the hint attached. -/
theorem no_match_failure_hint_witness :
    getDistroStore ⟨[], "fedora28"⟩
        ⟨"http://nowhere/", fun _ => false, fun _ => none, none⟩
        none "x86_64" (some "hvm") =
      Except.error (PyErr.noDistro "http://nowhere/"
        (!(fun (_ : String) => false) "")) :=
  no_match_failure_hint ⟨[], "fedora28"⟩
    ⟨"http://nowhere/", fun _ => false, fun _ => none, none⟩
    "x86_64" (some "hvm") none none rfl (fun _ => rfl) rfl

theorem containsList_underscore_digits :
    ∀ (l : List Char), l.all Char.isDigit = true →
      containsList ['_'] l = false := by
  intro l
  induction l with
  | nil => intro _; rfl
  | cons c rest ih =>
    intro hall
    rw [List.all_cons, Bool.and_eq_true] at hall
    obtain ⟨hc, hrest⟩ := hall
    have hne : ('_' == c) = false := by
      cases heq : ('_' == c) with
      | false => rfl
      | true =>
        have hce : '_' = c := beq_iff_eq.mp heq
        rw [← hce] at hc
        exact absurd hc (by decide)
    show (('_' == c && List.isPrefixOf [] rest) || containsList ['_'] rest) =
      false
    rw [hne]
    simp only [Bool.false_and, Bool.false_or]
    exact ih hrest

theorem pyContains_underscore (ver : String) (h : pyIsDigit ver = true) :
    pyContains ver "_" = false := by
  cases ver with
  | mk l =>
    cases l with
    | nil => exact Bool.noConfusion h
    | cons c rest =>
      have h2 : (c :: rest).all Char.isDigit = true := h
      exact containsList_underscore_digits (c :: rest) h2

theorem takeWhile_digits_ne (c0 : Char) (hc0 : Char.isDigit c0 = false) :
    ∀ (l : List Char), l.all Char.isDigit = true →
      l.takeWhile (fun d => !(d == c0)) = l := by
  intro l
  induction l with
  | nil => intro _; rfl
  | cons c rest ih =>
    intro hall
    rw [List.all_cons, Bool.and_eq_true] at hall
    obtain ⟨hc, hrest⟩ := hall
    have hne : (c == c0) = false := by
      cases heq : (c == c0) with
      | false => rfl
      | true =>
        have hce : c = c0 := beq_iff_eq.mp heq
        rw [hce, hc0] at hc
        cases hc
    rw [List.takeWhile_cons]
    simp only [hne, Bool.not_false, if_pos]
    rw [ih hrest]

theorem pyTakeUntil_digits (ver : String) (h : pyIsDigit ver = true) :
    pyTakeUntil '-' ver = ver := by
  cases ver with
  | mk l =>
    cases l with
    | nil => exact Bool.noConfusion h
    | cons c rest =>
      have h2 : (c :: rest).all Char.isDigit = true := h
      show String.mk (List.takeWhile (fun d => !(d == '-')) (c :: rest)) =
        String.mk (c :: rest)
      rw [takeWhile_digits_ne '-' (by decide) (c :: rest) h2]

theorem beq_lit_false_of_digits (ver lit : String) (h : pyIsDigit ver = true)
    (hlit : pyIsDigit lit = false) : (ver == lit) = false := by
  cases heq : (ver == lit) with
  | false => rfl
  | true =>
    have hve : ver = lit := beq_iff_eq.mp heq
    rw [hve, hlit] at h
    cases h

/-- C4: a Fedora-family descriptor resolves: version `23` to `fedora23`;
`rawhide`/`development`/`Rawhide` to the catalog's latest Fedora variant id;
a `_`-suffixed development version is stripped before parsing; and a numeric
version above the latest known number clamps to the latest variant id. The
hypotheses fix the catalog's latest Fedora id to a parseable `fedora<L>` with
`L ≥ 23`, as holds for the real catalog. -/
theorem fedora_version_resolution (cat : Catalog) (fam : String) (L : Nat)
    (hfam : pyContains fam "Fedora" = true)
    (hlat : fedoraLatestVernum cat = Except.ok L)
    (hL : 23 ≤ L) :
    fedoraValidate cat (mkTI fam "23" "x86_64") =
      Except.ok (true, some "fedora23")
    ∧ (∀ v : String, v = "rawhide" ∨ v = "development" ∨ v = "Rawhide" →
        fedoraValidate cat (mkTI fam v "x86_64") =
          Except.ok (true, some cat.latestFedora))
    ∧ fedoraValidate cat (mkTI fam "23_Alpha" "x86_64") =
        Except.ok (true, some "fedora23")
    ∧ (∀ (ver : String) (M : Nat), pyIsDigit ver = true →
        pyNatOfDigits ver = M → L < M →
        fedoraValidate cat (mkTI fam ver "x86_64") =
          Except.ok (true, some cat.latestFedora)) := by
  have hnf : (!pyContains fam "Fedora") = false := by
    rw [hfam]
    exact Bool.not_true
  refine ⟨?_, ?_, ?_, ?_⟩
  · have e1 : fedoraValidate cat (mkTI fam "23" "x86_64") =
        (if !pyContains fam "Fedora" then Except.ok (false, none)
         else
           match fedoraLatestVernum cat with
           | Except.error e => Except.error e
           | Except.ok latestNum =>
             Except.ok (true, some (if 23 > latestNum then cat.latestFedora
               else "fedora" ++ toString 23))) := rfl
    rw [e1, if_neg (boolNeTrue hnf), hlat]
    show Except.ok (true, some (if 23 > L then cat.latestFedora
      else "fedora" ++ toString 23)) = Except.ok (true, some "fedora23")
    rw [if_neg (by omega)]
    exact rfl
  · intro v hv
    have e1 : fedoraValidate cat (mkTI fam v "x86_64") =
        (if !pyContains fam "Fedora" then Except.ok (false, none)
         else
           match fedoraLatestVernum cat with
           | Except.error e => Except.error e
           | Except.ok _ => Except.ok (true, some cat.latestFedora)) := by
      rcases hv with h | h | h <;> rw [h] <;> rfl
    rw [e1, if_neg (boolNeTrue hnf), hlat]
  · have e1 : fedoraValidate cat (mkTI fam "23_Alpha" "x86_64") =
        (if !pyContains fam "Fedora" then Except.ok (false, none)
         else
           match fedoraLatestVernum cat with
           | Except.error e => Except.error e
           | Except.ok latestNum =>
             Except.ok (true, some (if 23 > latestNum then cat.latestFedora
               else "fedora" ++ toString 23))) := rfl
    rw [e1, if_neg (boolNeTrue hnf), hlat]
    show Except.ok (true, some (if 23 > L then cat.latestFedora
      else "fedora" ++ toString 23)) = Except.ok (true, some "fedora23")
    rw [if_neg (by omega)]
    exact rfl
  · intro ver M hdig hM hLM
    have hne := beq_lit_false_of_digits ver "" hdig (by decide)
    have hnd := beq_lit_false_of_digits ver "development" hdig (by decide)
    have hnr := beq_lit_false_of_digits ver "rawhide" hdig (by decide)
    have hnR := beq_lit_false_of_digits ver "Rawhide" hdig (by decide)
    have hnu := pyContains_underscore ver hdig
    have htake := pyTakeUntil_digits ver hdig
    simp only [fedoraValidate, liftTI_mkTI_family, liftTI_mkTI_version, hlat]
    rw [if_neg (boolNeTrue hnf)]
    rw [if_neg (boolNeTrue hne)]
    rw [if_neg (boolNeTrue (show (ver == "development" || ver == "rawhide" ||
      ver == "Rawhide") = false from by rw [hnd, hnr, hnR]; rfl))]
    rw [hnu]
    rw [if_neg Bool.false_ne_true]
    rw [htake, hdig, if_pos rfl, hM]
    rw [if_pos hLM]

/-- C4 witness: the four behaviors at a concrete catalog whose latest Fedora
variant is `fedora28`. -/
theorem fedora_version_resolution_witness :
    fedoraValidate ⟨[], "fedora28"⟩ (mkTI "Fedora" "23" "x86_64") =
      Except.ok (true, some "fedora23")
    ∧ fedoraValidate ⟨[], "fedora28"⟩ (mkTI "Fedora" "rawhide" "x86_64") =
        Except.ok (true, some "fedora28")
    ∧ fedoraValidate ⟨[], "fedora28"⟩ (mkTI "Fedora" "23_Alpha" "x86_64") =
        Except.ok (true, some "fedora23")
    ∧ fedoraValidate ⟨[], "fedora28"⟩ (mkTI "Fedora" "9999" "x86_64") =
        Except.ok (true, some "fedora28") :=
  ⟨(fedora_version_resolution ⟨[], "fedora28"⟩ "Fedora" 28 rfl rfl
      (by omega)).1,
    (fedora_version_resolution ⟨[], "fedora28"⟩ "Fedora" 28 rfl rfl
      (by omega)).2.1 "rawhide" (Or.inl rfl),
    (fedora_version_resolution ⟨[], "fedora28"⟩ "Fedora" 28 rfl rfl
      (by omega)).2.2.1,
    (fedora_version_resolution ⟨[], "fedora28"⟩ "Fedora" 28 rfl rfl
      (by omega)).2.2.2 "9999" 9999 rfl rfl (by omega)⟩

/-- C5 counterexample: the SUSE variant derivation calls `int()` on the
content version unguarded, so the non-numeric version `abc` raises
`ValueError` out of validation instead of falling back to any catalog value —
refuting the claim that version-parse failures never raise for every
probe. -/
theorem version_parse_fallback_counterexample :
    suseValidate ⟨[], "fedora28"⟩ "http://x/" Store.sles ["VERSION", "abc"] =
      Except.error PyErr.valueError := rfl

/-- C5 amended: only the Fedora probe falls back to the catalog's latest
version when the version string fails to parse; the RHEL-family parser turns
unparsable components into 0 via `_safeint` and proceeds without raising
(possibly leaving the variant unresolved, not set to any latest value); the
SUSE-family derivation raises `ValueError` on a non-numeric major version. -/
theorem version_parse_failure_behavior :
    (∀ (cat : Catalog) (fam ver : String) (L : Nat),
        pyContains fam "Fedora" = true →
        fedoraLatestVernum cat = Except.ok L →
        (ver == "") = false → (ver == "development") = false →
        (ver == "rawhide") = false → (ver == "Rawhide") = false →
        pyContains ver "_" = false →
        pyIsDigit (pyTakeUntil '-' ver) = false →
        fedoraValidate cat (mkTI fam ver "x86_64") =
          Except.ok (true, some ("fedora" ++ toString L)))
    ∧ parseTreeinfoVersion "foo" = Except.ok (0, 0)
    ∧ (∀ (cat : Catalog) (fam : String),
        pyContains fam "Red Hat Enterprise Linux" = true →
        catIsValid cat "rhel0.0" = false → catIsValid cat "rhel0" = false →
        rhelValidate cat (mkTI fam "foo" "x86_64") = Except.ok (true, none))
    ∧ (∀ (cat : Catalog) (uri : String),
        suseValidate cat uri Store.sles ["VERSION", "abc"] =
          Except.error PyErr.valueError) := by
  refine ⟨?_, rfl, ?_, fun _ _ => rfl⟩
  · intro cat fam ver L hfam hlat hne hnd hnr hnR hnu hndig
    have hnf : (!pyContains fam "Fedora") = false := by
      rw [hfam]
      exact Bool.not_true
    simp only [fedoraValidate, liftTI_mkTI_family, liftTI_mkTI_version, hlat]
    rw [if_neg (boolNeTrue hnf)]
    rw [if_neg (boolNeTrue hne)]
    rw [if_neg (boolNeTrue (show (ver == "development" || ver == "rawhide" ||
      ver == "Rawhide") = false from by rw [hnd, hnr, hnR]; rfl))]
    rw [hnu]
    rw [if_neg Bool.false_ne_true]
    rw [hndig]
    rw [if_neg Bool.false_ne_true]
    rw [if_neg (by omega)]
  · intro cat fam hfam hv0 hv1
    have e1 : rhelValidate cat (mkTI fam "foo" "x86_64") =
        (if pyContains fam "Red Hat Enterprise Linux" ||
            pyContains fam "RHEL" then
          Except.ok (true, setRHELVariant cat 0 0)
        else Except.ok (false, none)) := rfl
    have eloop : rhelUpdateLoop cat "rhel0" 0 = none := by
      have e : rhelUpdateLoop cat "rhel0" 0 =
          (if catIsValid cat "rhel0.0" then some "rhel0.0" else none) := rfl
      rw [e, hv0]
      rfl
    have e2 : setRHELVariant cat 0 0 = none := by
      have e : setRHELVariant cat 0 0 =
          (match rhelUpdateLoop cat "rhel0" 0 with
           | some v => some v
           | none =>
             if catIsValid cat "rhel0" then some "rhel0" else none) := rfl
      rw [e, eloop, hv1]
      rfl
    rw [e1, e2, if_pos (show (pyContains fam "Red Hat Enterprise Linux" ||
      pyContains fam "RHEL") = true from by rw [hfam]; rfl)]

/-- C5 amended witness: the Fedora fallback, the RHEL degradation and the
SUSE raise at concrete inputs. -/
theorem version_parse_failure_behavior_witness :
    fedoraValidate ⟨[], "fedora28"⟩ (mkTI "Fedora" "abc" "x86_64") =
      Except.ok (true, some ("fedora" ++ toString 28))
    ∧ rhelValidate ⟨[], "fedora28"⟩
        (mkTI "Red Hat Enterprise Linux" "foo" "x86_64") =
        Except.ok (true, none)
    ∧ suseValidate ⟨[], "fedora28"⟩ "http://x/" Store.sles
        ["VERSION", "abc"] = Except.error PyErr.valueError :=
  ⟨version_parse_failure_behavior.1 ⟨[], "fedora28"⟩ "Fedora" "abc" 28
      rfl rfl rfl rfl rfl rfl rfl rfl,
    version_parse_failure_behavior.2.2.1 ⟨[], "fedora28"⟩
      "Red Hat Enterprise Linux" rfl rfl rfl,
    version_parse_failure_behavior.2.2.2 ⟨[], "fedora28"⟩ "http://x/"⟩

theorem filter_not_filter {α : Type} (p : α → Bool) (l : List α) :
    (l.filter p).filter (fun x => !(p x)) = [] := by
  induction l with
  | nil => rfl
  | cons a t ih =>
    cases hp : p a with
    | true => simp [List.filter_cons, hp, ih]
    | false => simp [List.filter_cons, hp, ih]

theorem filter_self_filter {α : Type} (p : α → Bool) (l : List α) :
    (l.filter p).filter p = l.filter p := by
  induction l with
  | nil => rfl
  | cons a t ih =>
    cases hp : p a with
    | true => simp [List.filter_cons, hp, ih]
    | false => simp [List.filter_cons, hp, ih]

theorem candidateOrder_eq_spec (hint : Option String) (hasTI : Bool) :
    candidateOrder hint hasTI = specCandidateOrder hint hasTI := by
  cases hint with
  | none => rfl
  | some u =>
    have h1 : prioritizeStores allstores (some u) =
        (if u == "" then allstores
         else
           match allstores.find? (fun s => storeUrldistro s == some u) with
           | none => allstores
           | some s => s :: allstores.erase s) := by
      simp only [prioritizeStores]
      rw [findMatchingStore_eq_find? allstores u allstores_keys_unique]
    unfold candidateOrder
    rw [h1]
    exact rfl

theorem allstores_no_empty_key :
    (allstores.all (fun s => !(storeUrldistro s == some ""))) = true := by
  decide

/-- C2: the enumeration result is the first probe reporting matched in the
candidate order, and that order is exactly the spec's composition — registry
order with the catch-all forced last, then the hinted probe moved to the
front, then (with a descriptor) the stable two-class sort — and the sort
leaves a descriptor-unaware hinted probe first among the descriptor-unaware
probes. -/
theorem candidate_order_composition :
    (∀ (hint : Option String) (hasTI : Bool),
        candidateOrder hint hasTI = specCandidateOrder hint hasTI)
    ∧ (∀ (cat : Catalog) (f : Fetcher) (arch : String)
        (vmtype hint : Option String) (ti : Option TreeinfoData),
        enumerateStores cat f arch vmtype hint ti =
          match tryStores (storeValidate cat f arch vmtype ti [])
              (specCandidateOrder hint ti.isSome) with
          | Except.error e => Except.error e
          | Except.ok (some r) => Except.ok r
          | Except.ok none =>
            Except.error (PyErr.noDistro f.location (!f.hasFile "")))
    ∧ (∀ (u : String) (h : Store), h ∈ allstores →
        storeUrldistro h = some u → usesTreeinfo h = false →
        ((specCandidateOrder (some u) true).filter
          (fun s => !usesTreeinfo s)).head? = some h) := by
  refine ⟨candidateOrder_eq_spec, ?_, ?_⟩
  · intro cat f arch vmtype hint ti
    unfold enumerateStores
    rw [candidateOrder_eq_spec hint ti.isSome]
  · intro u h hmem hkey hfalse
    have hne : (u == "") = false := by
      cases hb : (u == "") with
      | false => rfl
      | true =>
        have hu : u = "" := beq_iff_eq.mp hb
        rw [hu] at hkey
        have hall := List.all_eq_true.mp allstores_no_empty_key h hmem
        rw [hkey] at hall
        exact absurd hall (by decide)
    have hfind : (declaredRegistry.erase Store.generic ++
          [Store.generic]).find? (fun s => storeUrldistro s == some u) =
        some h :=
      find?_unique_mem _ u h allstores_keys_unique hmem hkey
    have horder : specCandidateOrder (some u) true =
        ((h :: (declaredRegistry.erase Store.generic ++
            [Store.generic]).erase h).filter (fun s => usesTreeinfo s)) ++
          ((h :: (declaredRegistry.erase Store.generic ++
            [Store.generic]).erase h).filter (fun s => !usesTreeinfo s)) := by
      simp only [specCandidateOrder]
      rw [hne]
      rw [if_neg Bool.false_ne_true]
      rw [hfind]
      exact rfl
    rw [horder]
    rw [List.filter_append]
    rw [filter_not_filter]
    rw [filter_self_filter (fun s => !usesTreeinfo s)]
    rw [List.nil_append]
    rw [List.filter_cons]
    rw [hfalse]
    rfl

/-- C2 witness: the order equality at a concrete hint, and the hinted
descriptor-unaware Debian probe heading the descriptor-unaware group. -/
theorem candidate_order_composition_witness :
    candidateOrder (some "centos") true = specCandidateOrder (some "centos")
      true
    ∧ ((specCandidateOrder (some "debian") true).filter
        (fun s => !usesTreeinfo s)).head? = some Store.debian :=
  ⟨candidate_order_composition.1 (some "centos") true,
    candidate_order_composition.2.2 "debian" Store.debian (by decide)
      rfl rfl⟩

/-- The C1 scenario catalog: both `rhel8.2` and `centos8.2` are valid
variant ids and the latest Fedora is `fedora28`. -/
def catC1 : Catalog :=
  ⟨[⟨"rhel8.2", "", "Red Hat Enterprise Linux 8.2"⟩,
    ⟨"centos8.2", "", "CentOS 8.2"⟩], "fedora28"⟩

/-- The C1 scenario source: a descriptor with family
`Red Hat Enterprise Linux` and version `8.2`, nothing else reachable. -/
def fetcherC1 : Fetcher :=
  ⟨"http://example.com/tree", fun _ => false, fun _ => none,
    some (mkTI "Red Hat Enterprise Linux" "8.2" "x86_64")⟩

/-- C1 counterexample: with the canonical-key hint `centos` and descriptor
family `Red Hat Enterprise Linux` version `8.2`, detection does NOT resolve
via the CentOS probe: the CentOS validation requires the family to contain
`CentOS`, so it reports not-matched and the RHEL probe wins, yielding
`rhel8.2` — not `centos8.2`, which is present in the catalog as the claim's
predicted answer. -/
theorem centos_hint_rhel_family_counterexample :
    getDistroStore catC1 fetcherC1 (some "centos") "x86_64" (some "hvm") =
      Except.ok ⟨Store.rhel, some "rhel8.2", true⟩
    ∧ Store.rhel ≠ Store.centos
    ∧ catIsValid catC1 "centos8.2" = true
    ∧ ("rhel8.2" : String) ≠ "centos8.2" :=
  ⟨rfl, by decide, rfl, by decide⟩

/-- C1 amended: the hint `centos` does move the CentOS probe to the front of
the candidate order, but its validation matches only descriptor families
containing `CentOS`; for a `Red Hat Enterprise Linux` family it (and the
Fedora probe) report not-matched and detection resolves via the RHEL probe,
whose variant follows the exact fallback chain — `rhel<major>.<minor>`,
decrementing the minor to 0, else bare `rhel<major>` — with no
`rhel`→`centos` substitution applied. -/
theorem centos_hint_rhel_family_resolution (cat : Catalog) (f : Fetcher)
    (fam ver arch2 arch : String) (vmtype : Option String)
    (vn : Option Int) (osv : Option String)
    (hti : f.treeinfoFile = some (mkTI fam ver arch2))
    (h1 : pyContains fam "CentOS" = false)
    (h2 : pyContains fam "Fedora" = false)
    (h3 : pyContains fam "Red Hat Enterprise Linux" = true)
    (hv : rhelVariantFromVersion cat (mkTI fam ver arch2) =
      Except.ok (vn, osv)) :
    getDistroStore cat f (some "centos") arch vmtype =
      Except.ok ⟨Store.rhel, osv, true⟩
    ∧ (∀ (c : Catalog) (major upd : Int), 0 ≤ upd →
        setRHELVariant c major upd =
          (((List.range (upd.toNat + 1)).reverse.map
              (fun i => "rhel" ++ toString major ++ "." ++ toString i)) ++
            ["rhel" ++ toString major]).find? (catIsValid c)) := by
  constructor
  · have hg : grabTreeinfo f =
        Except.ok (some (mkTI fam ver arch2)) := by
      unfold grabTreeinfo
      rw [hti]
      exact rfl
    have hred : getDistroStore cat f (some "centos") arch vmtype =
        enumerateStores cat f arch vmtype (some "centos")
          (some (mkTI fam ver arch2)) := by
      unfold getDistroStore
      rw [hg]
    rw [hred]
    have horder : candidateOrder (some "centos")
        (some (mkTI fam ver arch2) : Option TreeinfoData).isSome =
        [Store.centos, Store.fedora, Store.rhel, Store.sl, Store.generic,
         Store.suse, Store.sles, Store.sled, Store.opensuse, Store.debian,
         Store.ubuntu, Store.mandriva, Store.altlinux] := rfl
    have hcen : storeValidate cat f arch vmtype
        (some (mkTI fam ver arch2)) [] Store.centos =
          Except.ok (false, none) := by
      simp only [storeValidate, centosValidate, liftTI_mkTI_family, h1]
      rw [if_neg Bool.false_ne_true]
    have hfed : storeValidate cat f arch vmtype
        (some (mkTI fam ver arch2)) [] Store.fedora =
          Except.ok (false, none) := by
      simp only [storeValidate, fedoraValidate, liftTI_mkTI_family, h2,
        Bool.not_false]
      exact if_pos trivial
    have hrh : storeValidate cat f arch vmtype
        (some (mkTI fam ver arch2)) [] Store.rhel =
          Except.ok (true, osv) := by
      simp only [storeValidate, rhelValidate, liftTI_mkTI_family, h3,
        Bool.true_or, hv]
      exact if_pos trivial
    unfold enumerateStores
    rw [horder]
    simp only [tryStores, hcen, hfed, hrh]
  · intro c major upd hupd
    have hcl : (if upd < 0 then (0 : Nat) else upd.toNat) = upd.toNat := by
      rw [if_neg (by omega)]
    have estep : setRHELVariant c major upd =
        (match rhelUpdateLoop c ("rhel" ++ toString major) upd.toNat with
         | some v => some v
         | none =>
           if catIsValid c ("rhel" ++ toString major) then
             some ("rhel" ++ toString major)
           else none) := by
      simp only [setRHELVariant]
      rw [hcl]
    rw [estep, rhelUpdateLoop_eq, find?_append_single]
    cases List.find? (catIsValid c)
        ((List.range (upd.toNat + 1)).reverse.map
          (fun i => "rhel" ++ toString major ++ "." ++ toString i)) with
    | none => rfl
    | some v => rfl

/-- C1 amended witness: the theorem applied to the C1 scenario — detection
yields the RHEL probe with `rhel8.2`, and the fallback chain equation at
major 8, minor 2. -/
theorem centos_hint_rhel_family_resolution_witness :
    getDistroStore catC1 fetcherC1 (some "centos") "x86_64" (some "hvm") =
      Except.ok ⟨Store.rhel, some "rhel8.2", true⟩
    ∧ setRHELVariant catC1 8 2 =
        (((List.range ((2 : Int).toNat + 1)).reverse.map
            (fun i => "rhel" ++ toString (8 : Int) ++ "." ++ toString i)) ++
          ["rhel" ++ toString (8 : Int)]).find? (catIsValid catC1) :=
  ⟨(centos_hint_rhel_family_resolution catC1 fetcherC1
      "Red Hat Enterprise Linux" "8.2" "x86_64" "x86_64" (some "hvm")
      (some 8) (some "rhel8.2") rfl rfl rfl rfl rfl).1,
    (centos_hint_rhel_family_resolution catC1 fetcherC1
      "Red Hat Enterprise Linux" "8.2" "x86_64" "x86_64" (some "hvm")
      (some 8) (some "rhel8.2") rfl rfl rfl rfl rfl).2 catC1 8 2
      (by omega)⟩

/-- The C8 scenario source: no descriptor, a legacy `content` file holding
only a version line, and no other reachable file. -/
def fetcherC8 : Fetcher :=
  ⟨"http://suse/tree", fun _ => false,
    (fun p => if p == "content" then some "hdr\nVERSION 13.2" else none),
    none⟩

/-- C8 counterexample: the legacy-content step classifies this source as
Generic, invokes the Generic probe's validation — which reports
not-matched — and the orchestrator still returns that probe immediately:
the legacy path does yield a probe whose validation reported not-matched,
refuting the claim. -/
theorem suse_content_unmatched_probe_counterexample :
    getDistroStore ⟨[], "fedora28"⟩ fetcherC8 none "x86_64" (some "hvm") =
      Except.ok ⟨Store.generic, none, false⟩
    ∧ (StoreResult.mk Store.generic none false).matched = false :=
  ⟨rfl, rfl⟩

/-- C8 amended: with no descriptor, the legacy-content path is attempted
before any registry enumeration and its probe — built with an eagerly
invoked validation whose boolean outcome is recorded but ignored — is
returned immediately whenever a version token was derived, even when that
validation reported not-matched; only when the legacy path yields nothing
does the orchestrator fall through to the registry enumeration. -/
theorem suse_content_path_precedes_enumeration (cat : Catalog) (f : Fetcher)
    (arch : String) (vmtype hint : Option String)
    (hti : f.treeinfoFile = none) :
    (∀ r : StoreResult,
        distroFromSUSEContent cat f arch vmtype = Except.ok (some r) →
        getDistroStore cat f hint arch vmtype = Except.ok r)
    ∧ (distroFromSUSEContent cat f arch vmtype = Except.ok none →
        getDistroStore cat f hint arch vmtype =
          enumerateStores cat f arch vmtype hint none) := by
  have hg : grabTreeinfo f = Except.ok none := by
    unfold grabTreeinfo
    rw [hti]
  constructor
  · intro r hr
    unfold getDistroStore
    rw [hg, hr]
  · intro hr
    unfold getDistroStore
    rw [hg, hr]

/-- The C8 witness catalog and source: a legacy content file identifying
openSUSE 13.2, which the legacy path resolves to a matched probe. -/
def catC8w : Catalog :=
  ⟨[⟨"opensuse13.2", "", "openSUSE 13.2"⟩], "fedora28"⟩

def fetcherC8w : Fetcher :=
  ⟨"http://suse/tree", fun _ => false,
    (fun p => if p == "content" then
      some "hdr\nLABEL openSUSE\nVERSION 13.2" else none),
    none⟩

/-- C8 amended witness: the immediate-return behavior at a matched legacy
probe. -/
theorem suse_content_path_precedes_enumeration_witness :
    getDistroStore catC8w fetcherC8w none "x86_64" (some "hvm") =
      Except.ok ⟨Store.opensuse, some "opensuse13.2", true⟩ :=
  (suse_content_path_precedes_enumeration catC8w fetcherC8w "x86_64"
    (some "hvm") none rfl).1 ⟨Store.opensuse, some "opensuse13.2", true⟩ rfl

end UrlDetect
